import Mathlib

/-!
# Resume content pipeline and generation client

A shallow embedding of the resume markdown assembler
(`getContactMarkdown`, `getCombinedContent` in `resume-builder.jsx`), of the
section parser of the preview (`parsedContent` in `resume-preview.jsx`) and of
the retrying generation client (`runLLM`, `improveWithAI` in
`actions/resume.js`).

JavaScript strings are modelled as lists of characters; a value that may be
`undefined` or `null` is an `Option`.
-/

namespace Sensai

/-- A JavaScript string, as the list of its characters. -/
abbrev Str := List Char

/-! ## String primitives -/

/-- The characters removed by `String.prototype.trim`: the ECMAScript
`WhiteSpace` and `LineTerminator` code points. -/
def isWhiteSpace (c : Char) : Bool :=
  let n := c.toNat
  n == 0x09 || n == 0x0A || n == 0x0B || n == 0x0C || n == 0x0D || n == 0x20 ||
  n == 0xA0 || n == 0x1680 || (0x2000 ≤ n && n ≤ 0x200A) || n == 0x2028 ||
  n == 0x2029 || n == 0x202F || n == 0x205F || n == 0x3000 || n == 0xFEFF

/-- The `trimStart` of a string. -/
def trimStart (s : Str) : Str := s.dropWhile isWhiteSpace

/-- The `trimEnd` of a string. -/
def trimEnd (s : Str) : Str := (s.reverse.dropWhile isWhiteSpace).reverse

/-- The `trim` of a string: leading and trailing white space removed. -/
def trim (s : Str) : Str := trimEnd (trimStart s)

/-- The call `s.split("\n")`: the pieces of `s` between line feeds; the empty
string gives one empty piece. -/
def splitLines : Str → List Str
  | [] => [[]]
  | c :: cs =>
    if c = '\n' then [] :: splitLines cs
    else
      match splitLines cs with
      | [] => [[c]]
      | l :: ls => (c :: l) :: ls

/-- The call `xs.join(sep)`. -/
def join (sep : Str) : List Str → Str
  | [] => []
  | [x] => x
  | x :: y :: xs => x ++ sep ++ join sep (y :: xs)

/-- The call `s.startsWith(p)`. -/
def startsWith (s p : Str) : Bool := p.isPrefixOf s

/-- The call `s.replace(pat, rep)` with a string pattern: the first occurrence
of `pat` in `s` is replaced, a string without occurrence is unchanged. -/
def replaceFirst (pat rep : Str) : Str → Str
  | [] => if pat = [] then rep else []
  | c :: cs =>
    if pat.isPrefixOf (c :: cs) then rep ++ (c :: cs).drop pat.length
    else c :: replaceFirst pat rep cs

/-- Truthiness of a string value that may be absent: `undefined`, `null` and
the empty string are falsy. -/
def truthy : Option Str → Bool
  | none => false
  | some s => !s.isEmpty

/-! ## The section parser of the preview (`resume-preview.jsx`) -/

/-- A parsed section of the markdown document. -/
structure Section where
  title : Str
  content : Str
deriving DecidableEq, Repr

/-- The marker of a level-2 header line. -/
def h2 : Str := "## ".toList

/-- The marker of a level-3 header line. -/
def h3 : Str := "### ".toList

/-- The variables of the scan: the sections pushed so far, the title of the
open section (`null` before the first header) and the buffered lines. -/
structure ParseState where
  sections : List Section
  currentSection : Option Str
  currentContent : List Str
deriving DecidableEq, Repr

/-- The sections after `sections.push(...)` guarded by `if (currentSection)`. -/
def pushCurrent (st : ParseState) : List Section :=
  if truthy st.currentSection then
    st.sections ++
      [{ title := st.currentSection.getD [],
         content := trim (join "\n".toList st.currentContent) }]
  else st.sections

/-- The body of `lines.forEach`, for one line. -/
def parseStep (st : ParseState) (line : Str) : ParseState :=
  if startsWith line h2 then
    { sections := pushCurrent st,
      currentSection := some (trim (replaceFirst h2 [] line)),
      currentContent := [] }
  else if startsWith line h3 then
    { st with currentContent := st.currentContent ++ [line] }
  else if truthy (some (trim line)) then
    { st with currentContent := st.currentContent ++ [line] }
  else st

/-- The scan over the lines, followed by the final push. -/
def parseLines (lines : List Str) : List Section :=
  pushCurrent (lines.foldl parseStep
    { sections := [], currentSection := none, currentContent := [] })

/-- The memoised `parsedContent` of `ResumePreview`. -/
def parsedContent (content : Str) : List Section :=
  if content.isEmpty then [] else parseLines (splitLines content)

/-! ## The markdown assembler (`resume-builder.jsx`) -/

/-- The contact fields of the form; a field left out is `none`, a field left
blank is the empty string. -/
structure ContactInfo where
  email : Option Str
  mobile : Option Str
  linkedin : Option Str
  twitter : Option Str
deriving DecidableEq, Repr

/-- An entry of a repeated section (experience, education, projects). -/
structure Entry where
  title : Str
  organization : Str
  duration : Str
  description : Str
deriving DecidableEq, Repr

/-- The values of the resume form, as returned by `watch()`. -/
structure FormValues where
  contactInfo : ContactInfo
  summary : Option Str
  skills : Option Str
  experience : List Entry
  education : List Entry
  projects : List Entry
deriving DecidableEq, Repr

/-- The expression `user?.fullName || "Your Name"`. -/
def displayName (fullName : Option Str) : Str :=
  if truthy fullName then fullName.getD [] else "Your Name".toList

/-- The array `parts` of `getContactMarkdown` after its four guarded pushes. -/
def contactParts (c : ContactInfo) : List Str :=
  let parts : List Str := []
  let parts := if truthy c.email then parts ++ ["📧 ".toList ++ c.email.getD []] else parts
  let parts := if truthy c.mobile then parts ++ ["📱 ".toList ++ c.mobile.getD []] else parts
  let parts :=
    if truthy c.linkedin then
      parts ++ ["💼 [LinkedIn](".toList ++ c.linkedin.getD [] ++ ")".toList]
    else parts
  let parts :=
    if truthy c.twitter then
      parts ++ ["🐦 [Twitter](".toList ++ c.twitter.getD [] ++ ")".toList]
    else parts
  parts

/-- The function `getContactMarkdown`. -/
def getContactMarkdown (fullName : Option Str) (c : ContactInfo) : Str :=
  let parts := contactParts c
  if parts.length > 0 then
    h2 ++ displayName fullName ++ "\n\n".toList ++ join " | ".toList parts
  else h2 ++ displayName fullName

/-- The expression `a && b` on string values: `a` itself when `a` is falsy. -/
def jsAnd (a : Option Str) (b : Str) : Option Str :=
  if truthy a then some b else a

/-- Modelled from the spec: `entriesToMarkdown` of `@/app/lib/helper`, whose
source is not among the files. By the spec a repeated-entry section renders as
a level-2 header followed by one level-3 sub-block per entry, the entries are
joined by a blank line, and an empty section is omitted (a falsy value). The
header and the first sub-block are separated by a blank line, as in the other
blocks of the assembler. What a sub-block holds after its `### ` marker is not
fixed by the spec: it is `render e`. -/
def entriesToMarkdown (render : Entry → Str) (entries : List Entry) (type : Str) :
    Option Str :=
  if entries.isEmpty then none
  else
    some (h2 ++ type ++ "\n\n".toList ++
      join "\n\n".toList (entries.map fun e => h3 ++ render e))

/-- The array literal of `getCombinedContent`, before `.filter(Boolean)`. -/
def candidateBlocks (render : Entry → Str) (fullName : Option Str) (f : FormValues) :
    List (Option Str) :=
  [ some (getContactMarkdown fullName f.contactInfo),
    jsAnd f.summary ("## Professional Summary\n\n".toList ++ f.summary.getD []),
    jsAnd f.skills ("## Skills\n\n".toList ++ f.skills.getD []),
    entriesToMarkdown render f.experience "Work Experience".toList,
    entriesToMarkdown render f.education "Education".toList,
    entriesToMarkdown render f.projects "Projects".toList ]

/-- The blocks kept by `.filter(Boolean)`. -/
def sectionBlocks (render : Entry → Str) (fullName : Option Str) (f : FormValues) :
    List Str :=
  ((candidateBlocks render fullName f).filter truthy).map fun b => b.getD []

/-- The function `getCombinedContent`. -/
def getCombinedContent (render : Entry → Str) (fullName : Option Str) (f : FormValues) :
    Str :=
  join "\n\n".toList (sectionBlocks render fullName f)

/-! ## The generation client (`actions/resume.js`) -/

/-- An error raised by the provider; `status` is its `status` property. -/
structure ProviderError where
  status : Option Nat
  message : Str
deriving DecidableEq, Repr

/-- The outcome of one `ai.models.generateContent` call: a response with its
`text` property, or a rejection. -/
inductive GenResult where
  | ok (text : Option Str)
  | fail (err : ProviderError)
deriving DecidableEq, Repr

/-- A thrown value: an error of the provider rethrown as it is, or a
`new Error(message)`. -/
inductive Thrown where
  | provider (err : ProviderError)
  | error (message : Str)
deriving DecidableEq, Repr

/-- The provider: the outcome of a call, given the model, the prompt and the
number of calls made before it. -/
abbrev Provider := Str → Str → Nat → GenResult

/-- What a run of the client did: its result (returned or thrown), the number
of provider calls and the number of 2 s waits (one before each retry). -/
structure Run where
  outcome : Except Thrown Str
  calls : Nat
  waits : Nat
deriving Repr

/-- The expression `result.text?.trim() || ""`. -/
def responseText (text : Option Str) : Str :=
  let t := text.map trim
  if truthy t then t.getD [] else []

/-- The `for` loop of `runLLM` with `remaining` iterations left, after `calls`
provider calls and `waits` waits. -/
def runLLMLoop (ai : Provider) (prompt model : Str) : Nat → Nat → Nat → Run
  | 0, calls, waits =>
    { outcome := .error (.error "AI model unavailable after retries.".toList),
      calls := calls, waits := waits }
  | remaining + 1, calls, waits =>
    match ai model prompt calls with
    | .ok text => { outcome := .ok (responseText text), calls := calls + 1, waits := waits }
    | .fail err =>
      if err.status = some 503 then
        runLLMLoop ai prompt model remaining (calls + 1) (waits + 1)
      else { outcome := .error (.provider err), calls := calls + 1, waits := waits }

/-- The function `runLLM`: at most three iterations. A caller that leaves
`model` out gets `"gemini-2.5-flash"`. -/
def runLLM (ai : Provider) (prompt model : Str) : Run :=
  runLLMLoop ai prompt model 3 0 0

/-- A user record, as far as `improveWithAI` reads it. -/
structure User where
  id : Str
  industry : Option Str
deriving DecidableEq, Repr

/-- The collaborators of a server action: the subject given by `auth()`, the
lookup `db.user.findUnique` by `clerkUserId`, and the provider. -/
structure Env where
  userId : Option Str
  findUser : Str → Option User
  ai : Provider

/-- A value interpolated into a template literal. -/
def interpolate : Option Str → Str
  | none => "null".toList
  | some s => s

/-- The prompt built by `improveWithAI`. -/
def improvePrompt (user : User) (current type : Str) : Str :=
  "\nAs an expert resume writer, improve the following ".toList ++ type ++
  " description for a ".toList ++ interpolate user.industry ++
  " professional.\nMake it more impactful, quantifiable, and aligned with industry standards.\nCurrent content: \"".toList ++
  current ++
  "\"\n\nRequirements:\n1. Use action verbs\n2. Include metrics and results\n3. Highlight technical skills\n4. Keep it concise\n5. Focus on achievements over responsibilities\n6. Use industry-specific keywords\n\nFormat as a single paragraph without extra text.\n".toList

/-- The server action `improveWithAI`. -/
def improveWithAI (env : Env) (current type : Str) : Run :=
  if !truthy env.userId then
    { outcome := .error (.error "Unauthorized".toList), calls := 0, waits := 0 }
  else
    match env.findUser (env.userId.getD []) with
    | none => { outcome := .error (.error "User not found".toList), calls := 0, waits := 0 }
    | some user =>
      let r := runLLM env.ai (improvePrompt user current type) "gemini-2.5-flash".toList
      match r.outcome with
      | .ok improvedContent => { r with outcome := .ok improvedContent }
      | .error _ =>
        { r with outcome := .error (.error "Failed to improve resume content".toList) }

/-! ## Reading the parser from the spec

The spec describes the parser by header lines and the lines between them; the
definitions below follow these words and are compared with the scan. -/

/-- A line that starts with `## `. -/
def isHeader (line : Str) : Bool := startsWith line h2

/-- A line made of white space only (the empty line included). -/
def isBlank (line : Str) : Bool := line.all isWhiteSpace

/-- The remainder of a header line after its three-character marker. -/
def remainder (line : Str) : Str := line.drop 3

/-- Every header line with the lines lying between it and the next header
line (or the end of the input). -/
def headerBlocks : List Str → List (Str × List Str)
  | [] => []
  | l :: ls =>
    if isHeader l then (l, ls.takeWhile fun x => !isHeader x) :: headerBlocks ls
    else headerBlocks ls

/-- The header lines of a text. -/
def headerLines (t : Str) : List Str := (splitLines t).filter isHeader

/-- The text from the first header line onward. -/
def fromFirstHeader (t : Str) : Str :=
  join "\n".toList ((splitLines t).dropWhile fun l => !isHeader l)

/-- The section read off a header line and the lines that follow it. -/
def sectionOf (b : Str × List Str) : Section :=
  { title := trim (remainder b.1),
    content := trim (join "\n".toList (b.2.filter fun l => !isBlank l)) }

/-- A line that holds no line feed and is not blank. -/
def goodLine (l : Str) : Prop := '\n' ∉ l ∧ isBlank l = false

/-! ## Reading the assembler from the spec -/

/-- The body of a repeated-entry section: its sub-blocks joined by a blank
line. -/
def entriesBody (render : Entry → Str) (entries : List Entry) : Str :=
  join "\n\n".toList (entries.map fun e => h3 ++ render e)

/-- The block of a section with a title and a body: the header line, a blank
line and the body; no block at all when the body is empty. -/
def optBlock (title body : Str) : List Str :=
  if body.isEmpty then [] else [h2 ++ title ++ "\n\n".toList ++ body]

/-- The blocks of the sections after the contact block, in the fixed order. -/
def bodyBlocks (render : Entry → Str) (f : FormValues) : List Str :=
  optBlock "Professional Summary".toList (f.summary.getD []) ++
  optBlock "Skills".toList (f.skills.getD []) ++
  optBlock "Work Experience".toList (entriesBody render f.experience) ++
  optBlock "Education".toList (entriesBody render f.education) ++
  optBlock "Projects".toList (entriesBody render f.projects)

/-- The titles of the non-empty categories after the contact block, in the
fixed order. -/
def sectionTitles (f : FormValues) : List Str :=
  (if truthy f.summary then ["Professional Summary".toList] else []) ++
  (if truthy f.skills then ["Skills".toList] else []) ++
  (if f.experience.isEmpty then [] else ["Work Experience".toList]) ++
  (if f.education.isEmpty then [] else ["Education".toList]) ++
  (if f.projects.isEmpty then [] else ["Projects".toList])

/-- The titles of the non-empty categories, the contact category included:
what the round trip is said to return. -/
def nonEmptyTitles (fullName : Option Str) (f : FormValues) : List Str :=
  (if (contactParts f.contactInfo).isEmpty then [] else [displayName fullName]) ++
  sectionTitles f

/-- The present contact fields in the order email, mobile, linkedin, twitter,
each with its glyph. -/
def presentContactFields (c : ContactInfo) : List Str :=
  [ c.email.bind (fun v => if v.isEmpty then none else some ("📧 ".toList ++ v)),
    c.mobile.bind (fun v => if v.isEmpty then none else some ("📱 ".toList ++ v)),
    c.linkedin.bind (fun v =>
      if v.isEmpty then none else some ("💼 [LinkedIn](".toList ++ v ++ ")".toList)),
    c.twitter.bind (fun v =>
      if v.isEmpty then none else some ("🐦 [Twitter](".toList ++ v ++ ")".toList)) ].filterMap id

/-- No line of the text starts with `## `. -/
def headerFree (t : Str) : Prop := headerLines t = []

instance (t : Str) : Decidable (headerFree t) := by
  unfold headerFree
  infer_instance

/-- The free text of the form does not break the structure of the document:
the display name is one line, and no line of the contact line, of the summary,
of the skills or of a sub-block starts with `## `. -/
def plainText (render : Entry → Str) (fullName : Option Str) (f : FormValues) : Prop :=
  '\n' ∉ displayName fullName ∧
  headerFree (join " | ".toList (contactParts f.contactInfo)) ∧
  headerFree (f.summary.getD []) ∧
  headerFree (f.skills.getD []) ∧
  ∀ e ∈ f.experience ++ f.education ++ f.projects, headerFree (h3 ++ render e)

instance (render : Entry → Str) (fullName : Option Str) (f : FormValues) :
    Decidable (plainText render fullName f) := by
  unfold plainText
  infer_instance

/-! ## Sample inputs -/

/-- The contact fields of the example of the spec: an email and a LinkedIn
address. -/
def sampleContact : ContactInfo :=
  { email := some "a@b.com".toList, mobile := none,
    linkedin := some "https://x.com/a".toList, twitter := none }

/-- The form as it is before any input: every text empty, no entry. -/
def blankForm : FormValues :=
  { contactInfo :=
      { email := some [], mobile := some [], linkedin := some [], twitter := some [] },
    summary := some [], skills := some [],
    experience := [], education := [], projects := [] }

/-- A form that holds a summary only. -/
def summaryOnlyForm : FormValues :=
  { blankForm with summary := some "Ten years of backend work.".toList }

/-- A full name with a blank before and after it. -/
def paddedName : Option Str := some " Ada ".toList

/-- A form whose summary is itself a header line. -/
def headerInSummaryForm : FormValues :=
  { blankForm with contactInfo := sampleContact, summary := some "## Extra".toList }

/-- A sub-block text: the heading of the entry, a blank line and its
description. -/
def sampleRender (e : Entry) : Str :=
  e.title ++ " @ ".toList ++ e.organization ++ "\n\n".toList ++ e.description

/-- A filled form with two experience entries. -/
def sampleForm : FormValues :=
  { contactInfo := sampleContact,
    summary := some "Ten years of backend work.".toList,
    skills := some "Go, SQL".toList,
    experience :=
      [ { title := "Engineer".toList, organization := "Acme".toList,
          duration := "2020 - 2024".toList, description := "Built the billing service.".toList },
        { title := "Analyst".toList, organization := "Bolt".toList,
          duration := "2018 - 2020".toList, description := "Wrote reports.".toList } ],
    education := [],
    projects :=
      [ { title := "Parser".toList, organization := "Open source".toList,
          duration := "2023".toList, description := "A markdown parser.".toList } ] }

/-- A provider that is unavailable (status 503) on its first two calls and
answers on the third. -/
def flakyProvider : Provider := fun _ _ i =>
  if i < 2 then .fail { status := some 503, message := "The model is overloaded.".toList }
  else .ok (some "  Led a team of five.\n".toList)

/-- A provider that is unavailable (status 503) on every call. -/
def downProvider : Provider := fun _ _ _ =>
  .fail { status := some 503, message := "The model is overloaded.".toList }

/-- A signed-in user with a profile, before `downProvider`. -/
def downEnv : Env :=
  { userId := some "user_1".toList,
    findUser := fun _ => some { id := "u1".toList, industry := some "tech".toList },
    ai := downProvider }

/-! ## Server actions: values and collaborators

The actions of `cover-letter.js`, `dashboard.js`, `interview.js`, `resume.js`
and `user.js` call three collaborators: `auth()`, the database client `db`
and the provider `ai`. A run of an action is described by what it returns or
throws, by the number of provider calls and by the database operations it
attempted, in order. -/

/-- A JSON value, as `JSON.parse` returns it; numbers are taken as rationals. -/
inductive Json where
  | null
  | bool (b : Bool)
  | num (value : Rat)
  | str (s : Str)
  | arr (items : List Json)
  | obj (fields : List (Str × Json))

/-- The stored industry insight, and the fallback object of the same shape. -/
structure Insight where
  id : Str
  industry : Str
  salaryRanges : List Json
  growthRate : Rat
  demandLevel : Str
  topSkills : List Str
  marketOutlook : Str
  keyTrends : List Str
  recommendedSkills : List Str
  lastUpdated : Nat
  nextUpdate : Nat

/-- A user record with the fields the actions read; `industryInsight` is
present when the lookup includes it and a cached insight exists. -/
structure Profile where
  id : Str
  industry : Option Str
  experience : Option Nat
  skills : Option (List Str)
  bio : Option Str
  industryInsight : Option Insight

/-- The argument of `generateCoverLetter`. -/
structure JobData where
  jobTitle : Str
  companyName : Str
  jobDescription : Str
deriving DecidableEq, Repr

/-- The `data` of `db.coverLetter.create`. -/
structure CoverLetterData where
  content : Str
  jobDescription : Str
  companyName : Str
  jobTitle : Str
  status : Str
  userId : Str
deriving DecidableEq, Repr

/-- A stored cover letter. -/
structure CoverLetter where
  id : Str
  data : CoverLetterData
deriving DecidableEq, Repr

/-- The `data` of `db.industryInsight.create`: the industry, the spread of the
generated insights, and the date of the next update (ms). -/
structure InsightData where
  industry : Option Str
  insights : Json
  nextUpdate : Nat

/-- A value the client passes in a quiz: a string, `null`, or `undefined` for
a missing field or an index past the end of an array. -/
inductive JsVal where
  | undefined
  | null
  | str (s : Str)
deriving DecidableEq, Repr

/-- A question of a quiz, as the client passes it back. -/
structure Question where
  question : JsVal
  correctAnswer : JsVal
  explanation : JsVal
deriving DecidableEq, Repr

/-- An element of `questionResults`. -/
structure QuestionResult where
  question : JsVal
  answer : JsVal
  userAnswer : JsVal
  isCorrect : Bool
  explanation : JsVal
deriving DecidableEq, Repr

/-- The `data` of `db.assessment.create`. -/
structure AssessmentData where
  userId : Str
  quizScore : Rat
  questions : List QuestionResult
  category : Str
  improvementTip : Option Str
deriving DecidableEq, Repr

/-- A stored assessment. -/
structure Assessment where
  id : Str
  data : AssessmentData
deriving DecidableEq, Repr

/-- A stored resume. -/
structure Resume where
  userId : Str
  content : Str
deriving DecidableEq, Repr

/-- The argument of `updateUser`. -/
structure ProfileUpdate where
  industry : Option Str
  experience : Option Nat
  bio : Option Str
  skills : Option (List Str)
deriving DecidableEq, Repr

/-- A database operation, with its arguments. -/
inductive DbOp where
  | userFindUnique (clerkUserId : Str)
  | userUpdate (id : Str) (data : ProfileUpdate)
  | coverLetterCreate (data : CoverLetterData)
  | coverLetterFindMany (userId : Str)
  | coverLetterFindUnique (id userId : Str)
  | coverLetterDelete (id userId : Str)
  | industryInsightFindUnique (industry : Option Str)
  | industryInsightCreate (data : InsightData)
  | assessmentCreate (data : AssessmentData)
  | assessmentFindMany (userId : Str)
  | resumeUpsert (userId content : Str)
  | resumeFindUnique (userId : Str)

/-- Whether an operation writes to the database. -/
def DbOp.isWrite : DbOp → Bool
  | .userUpdate _ _ => true
  | .coverLetterCreate _ => true
  | .coverLetterDelete _ _ => true
  | .industryInsightCreate _ => true
  | .assessmentCreate _ => true
  | .resumeUpsert _ _ => true
  | _ => false

/-- The `status` property of a thrown value (`undefined` for a plain
`Error`). -/
def Thrown.status : Thrown → Option Nat
  | .provider err => err.status
  | .error _ => none

/-- The database client: what each operation answers, given the number of
database operations made before it; `.error` is a rejected promise. -/
structure Db where
  userFindUnique : Nat → Str → Except Thrown (Option Profile)
  userUpdate : Nat → Str → ProfileUpdate → Except Thrown Profile
  coverLetterCreate : Nat → CoverLetterData → Except Thrown CoverLetter
  coverLetterFindMany : Nat → Str → Except Thrown (List CoverLetter)
  coverLetterFindUnique : Nat → Str → Str → Except Thrown (Option CoverLetter)
  coverLetterDelete : Nat → Str → Str → Except Thrown CoverLetter
  industryInsightFindUnique : Nat → Option Str → Except Thrown (Option Insight)
  industryInsightCreate : Nat → InsightData → Except Thrown Insight
  assessmentCreate : Nat → AssessmentData → Except Thrown Assessment
  assessmentFindMany : Nat → Str → Except Thrown (List Assessment)
  resumeUpsert : Nat → Str → Str → Except Thrown Resume
  resumeFindUnique : Nat → Str → Except Thrown (Option Resume)

/-- The collaborators of the server actions: the subject given by `auth()`,
the database, the provider, `JSON.parse` (`none` for a `SyntaxError`), the
text of `JSON.stringify(error.errorDetails)` or `String(error)` for a thrown
value, and the clock (ms). -/
structure Server where
  userId : Option Str
  db : Db
  ai : Provider
  parse : Str → Option Json
  describe : Thrown → Str
  now : Nat

/-- What a run of an action did: its result (returned or thrown), the number
of provider calls and the database operations attempted, in order. -/
structure Act (α : Type) where
  outcome : Except Thrown α
  calls : Nat
  db : List DbOp

/-- The thrown value `new Error(message)`. -/
def jsError (message : String) : Thrown := .error message.toList

/-- The database log after the profile lookup of an action. -/
def lookupLog (s : Server) : List DbOp := [.userFindUnique (s.userId.getD [])]

/-- The opening of an action: `auth()`, the check of the subject, the lookup
`db.user.findUnique` by `clerkUserId` and the check of the record; `body` is
the rest of the action. -/
def withUser {α : Type} (s : Server) (body : Profile → Act α) : Act α :=
  if !truthy s.userId then { outcome := .error (jsError "Unauthorized"), calls := 0, db := [] }
  else
    match s.db.userFindUnique 0 (s.userId.getD []) with
    | .error e => { outcome := .error e, calls := 0, db := lookupLog s }
    | .ok none => { outcome := .error (jsError "User not found"), calls := 0, db := lookupLog s }
    | .ok (some user) => body user

/-- The function `runLLM` of `cover-letter.js`, `dashboard.js` and
`interview.js` (the three are the same): one provider call, made after
`calls` earlier ones, and no retry. -/
def runLLMOnce (ai : Provider) (prompt : Str) (calls : Nat) : Except Thrown Str :=
  match ai "gemini-2.5-flash".toList prompt calls with
  | .ok text => .ok (responseText text)
  | .fail err => .error (.provider err)

/-- A value interpolated into a template literal, `undefined` when absent. -/
def interpolateUndefined : Option Str → Str
  | none => "undefined".toList
  | some s => s

/-- A number interpolated into a template literal, `null` when absent. -/
def interpolateNat : Option Nat → Str
  | none => "null".toList
  | some n => (toString n).toList

/-! ## The actions of `cover-letter.js` -/

/-- The prompt built by `generateCoverLetter`. -/
def coverLetterPrompt (user : Profile) (data : JobData) : Str :=
  "\nWrite a professional cover letter for a ".toList ++ data.jobTitle ++
  " position at ".toList ++ data.companyName ++
  ".\n\nAbout the candidate:\n- Industry: ".toList ++ interpolate user.industry ++
  "\n- Years of Experience: ".toList ++ interpolateNat user.experience ++
  "\n- Skills: ".toList ++ interpolateUndefined (user.skills.map (join ", ".toList)) ++
  "\n- Professional Background: ".toList ++ interpolate user.bio ++
  "\n\nJob Description:\n".toList ++ data.jobDescription ++
  "\n\nRequirements:\n1. Use a professional, enthusiastic tone\n2. Highlight relevant skills and experience\n3. Show understanding of the company's needs\n4. Keep it concise (max 400 words)\n5. Use proper business letter formatting in markdown\n6. Include specific examples of achievements\n7. Relate candidate's background to job requirements\n\nFormat the letter in markdown.\n".toList

/-- The record created after a successful generation. -/
def completedLetter (user : Profile) (data : JobData) (content : Str) : CoverLetterData :=
  { content := content,
    jobDescription := data.jobDescription,
    companyName := data.companyName,
    jobTitle := data.jobTitle,
    status := "completed".toList,
    userId := user.id }

/-- The record created when the quota is exceeded; `details` is the text of
the provider's error. -/
def failedLetter (user : Profile) (data : JobData) (details : Str) : CoverLetterData :=
  { content :=
      "AI generation failed: quota exceeded. Please check your Google Cloud billing and quota settings and try again later.\n\nProvider details:\n".toList ++
        details,
    jobDescription := data.jobDescription,
    companyName := data.companyName,
    jobTitle := data.jobTitle,
    status := "failed".toList,
    userId := user.id }

/-- The outer `try` block of `generateCoverLetter`: the generation, then the
creation of the record; with it the database log. -/
def tryCoverLetter (s : Server) (user : Profile) (data : JobData) :
    Except Thrown CoverLetter × List DbOp :=
  match runLLMOnce s.ai (coverLetterPrompt user data) 0 with
  | .error e => (.error e, lookupLog s)
  | .ok content =>
    (s.db.coverLetterCreate 1 (completedLetter user data content),
      lookupLog s ++ [.coverLetterCreate (completedLetter user data content)])

/-- The action `generateCoverLetter`. -/
def generateCoverLetter (s : Server) (data : JobData) : Act CoverLetter :=
  withUser s fun user =>
    match tryCoverLetter s user data with
    | (.ok coverLetter, log) => { outcome := .ok coverLetter, calls := 1, db := log }
    | (.error error, log) =>
      if error.status = some 429 then
        match s.db.coverLetterCreate log.length (failedLetter user data (s.describe error)) with
        | .ok coverLetter =>
          { outcome := .ok coverLetter, calls := 1,
            db := log ++ [.coverLetterCreate (failedLetter user data (s.describe error))] }
        | .error _ =>
          { outcome := .error (jsError "Failed to generate cover letter"), calls := 1,
            db := log ++ [.coverLetterCreate (failedLetter user data (s.describe error))] }
      else
        { outcome := .error (jsError "Failed to generate cover letter"), calls := 1, db := log }

/-- The action `getCoverLetters`. -/
def getCoverLetters (s : Server) : Act (List CoverLetter) :=
  withUser s fun user =>
    { outcome := s.db.coverLetterFindMany 1 user.id, calls := 0,
      db := lookupLog s ++ [.coverLetterFindMany user.id] }

/-- The action `getCoverLetter`. -/
def getCoverLetter (s : Server) (id : Str) : Act (Option CoverLetter) :=
  withUser s fun user =>
    { outcome := s.db.coverLetterFindUnique 1 id user.id, calls := 0,
      db := lookupLog s ++ [.coverLetterFindUnique id user.id] }

/-- The action `deleteCoverLetter`. -/
def deleteCoverLetter (s : Server) (id : Str) : Act CoverLetter :=
  withUser s fun user =>
    { outcome := s.db.coverLetterDelete 1 id user.id, calls := 0,
      db := lookupLog s ++ [.coverLetterDelete id user.id] }

/-! ## The actions of `dashboard.js` -/

/-- The length of the match of the pattern of the code-fence marker (three
backticks, then `json` if it is there, then a line feed if it is there) at the
start of a text; zero when the text does not start with three backticks. -/
def fenceLength (t : Str) : Nat :=
  if "```".toList.isPrefixOf t then
    let t1 := t.drop 3
    let n1 := if "json".toList.isPrefixOf t1 then 4 else 0
    let t2 := t1.drop n1
    let n2 := if "\n".toList.isPrefixOf t2 then 1 else 0
    3 + n1 + n2
  else 0

/-- The scan of the global replace: `skip` characters of a match are still to
be dropped. -/
def stripFencesFrom : Nat → Str → Str
  | _, [] => []
  | skip + 1, _ :: cs => stripFencesFrom skip cs
  | 0, c :: cs =>
    if fenceLength (c :: cs) = 0 then c :: stripFencesFrom 0 cs
    else stripFencesFrom (fenceLength (c :: cs) - 1) cs

/-- The call that replaces every code-fence marker by the empty string. -/
def stripFences (t : Str) : Str := stripFencesFrom 0 t

/-- The `cleanedText` of `generateAIInsights` and `generateQuiz`. -/
def cleanedText (text : Str) : Str := trim (stripFences text)

/-- The prompt built by `generateAIInsights`. -/
def insightsPrompt (industry : Option Str) : Str :=
  "\nAnalyze the current state of the ".toList ++ interpolate industry ++
  " industry and provide insights in ONLY the following JSON format, without any additional notes:\n\n\x7b\n  \"salaryRanges\": [\n    \x7b \"role\": \"string\", \"min\": number, \"max\": number, \"median\": number, \"location\": \"string\" \x7d\n  ],\n  \"growthRate\": number,\n  \"demandLevel\": \"High\" | \"Medium\" | \"Low\",\n  \"topSkills\": [\"skill1\", \"skill2\"],\n  \"marketOutlook\": \"Positive\" | \"Neutral\" | \"Negative\",\n  \"keyTrends\": [\"trend1\", \"trend2\"],\n  \"recommendedSkills\": [\"skill1\", \"skill2\"]\n\x7d\n\nInclude at least 5 common roles for salary ranges, 5 skills and trends, and provide growth rate as a percentage.\nReturn ONLY the JSON, no extra text or markdown.\n".toList

/-- The exported function `generateAIInsights`; it reads neither the subject
nor the database. -/
def generateAIInsights (s : Server) (industry : Option Str) : Act Json :=
  match runLLMOnce s.ai (insightsPrompt industry) 0 with
  | .error _ => { outcome := .error (jsError "Failed to generate AI insights"), calls := 1, db := [] }
  | .ok text =>
    match s.parse (cleanedText text) with
    | none => { outcome := .error (jsError "Failed to generate AI insights"), calls := 1, db := [] }
    | some value => { outcome := .ok value, calls := 1, db := [] }

/-- The fallback object returned by `getIndustryInsights`. -/
def fallbackInsight (user : Profile) (now : Nat) : Insight :=
  { id := "fallback".toList,
    industry := user.industry.getD "unknown".toList,
    salaryRanges := [],
    growthRate := 0,
    demandLevel := "Medium".toList,
    topSkills := [],
    marketOutlook := "Neutral".toList,
    keyTrends := [],
    recommendedSkills := [],
    lastUpdated := now,
    nextUpdate := now + 24 * 60 * 60 * 1000 }

/-- The action `getIndustryInsights`. -/
def getIndustryInsights (s : Server) : Act Insight :=
  withUser s fun user =>
    match user.industryInsight with
    | some cached => { outcome := .ok cached, calls := 0, db := lookupLog s }
    | none =>
      let g := generateAIInsights s user.industry
      match g.outcome with
      | .error _ =>
        { outcome := .ok (fallbackInsight user s.now), calls := g.calls, db := lookupLog s }
      | .ok insights =>
        let data : InsightData :=
          { industry := user.industry, insights := insights,
            nextUpdate := s.now + 7 * 24 * 60 * 60 * 1000 }
        match s.db.industryInsightCreate 1 data with
        | .ok industryInsight =>
          { outcome := .ok industryInsight, calls := g.calls,
            db := lookupLog s ++ [.industryInsightCreate data] }
        | .error _ =>
          { outcome := .ok (fallbackInsight user s.now), calls := g.calls,
            db := lookupLog s ++ [.industryInsightCreate data] }

/-! ## The actions of `interview.js` -/

/-- The prompt built by `generateQuiz`. -/
def quizPrompt (user : Profile) : Str :=
  "\nGenerate 10 technical interview questions for a ".toList ++ interpolate user.industry ++
  " professional".toList ++
  (match user.skills with
    | some (k :: ks) => " with expertise in ".toList ++ join ", ".toList (k :: ks)
    | _ => []) ++
  ".\n\nEach question should be multiple choice with 4 options.\n\nReturn the response in this JSON format only:\n\x7b\n  \"questions\": [\n    \x7b\n      \"question\": \"string\",\n      \"options\": [\"string\", \"string\", \"string\", \"string\"],\n      \"correctAnswer\": \"string\",\n      \"explanation\": \"string\"\n    \x7d\n  ]\n\x7d\n".toList

/-- The property access `value.questions`: `none` is the `TypeError` on
`null`; `some none` is `undefined`. In an object the last field of the name
counts. -/
def questionsOf : Json → Option (Option Json)
  | .null => none
  | .obj fields =>
    some ((fields.reverse.find? fun kv => kv.1 = "questions".toList).map fun kv => kv.2)
  | _ => some none

/-- The action `generateQuiz`; `undefined` is returned as `none`. -/
def generateQuiz (s : Server) : Act (Option Json) :=
  withUser s fun user =>
    match runLLMOnce s.ai (quizPrompt user) 0 with
    | .error _ =>
      { outcome := .error (jsError "Failed to generate quiz questions"), calls := 1,
        db := lookupLog s }
    | .ok text =>
      match s.parse (cleanedText text) with
      | none =>
        { outcome := .error (jsError "Failed to generate quiz questions"), calls := 1,
          db := lookupLog s }
      | some quiz =>
        match questionsOf quiz with
        | none =>
          { outcome := .error (jsError "Failed to generate quiz questions"), calls := 1,
            db := lookupLog s }
        | some questions => { outcome := .ok questions, calls := 1, db := lookupLog s }

/-- A client value interpolated into a template literal. -/
def JsVal.interpolate : JsVal → Str
  | .undefined => "undefined".toList
  | .null => "null".toList
  | .str s => s

/-- The array `questionResults`, from index `i` on; `answers[i]` is
`undefined` past the end of `answers`. -/
def questionResultsFrom (answers : List JsVal) : Nat → List Question → List QuestionResult
  | _, [] => []
  | i, q :: qs =>
    { question := q.question,
      answer := q.correctAnswer,
      userAnswer := answers.getD i .undefined,
      isCorrect := decide (q.correctAnswer = answers.getD i .undefined),
      explanation := q.explanation } :: questionResultsFrom answers (i + 1) qs

/-- The array `questionResults` of `saveQuizResult`. -/
def questionResults (questions : List Question) (answers : List JsVal) : List QuestionResult :=
  questionResultsFrom answers 0 questions

/-- The array `wrongAnswers`. -/
def wrongAnswers (results : List QuestionResult) : List QuestionResult :=
  results.filter fun q => !q.isCorrect

/-- The prompt for the improvement tip. -/
def improvementPrompt (user : Profile) (wrong : List QuestionResult) : Str :=
  "\nThe user got the following ".toList ++ interpolate user.industry ++
  " technical questions wrong:\n\n".toList ++
  join "\n\n".toList (wrong.map fun q =>
    "Question: \"".toList ++ q.question.interpolate ++
    "\"\nCorrect Answer: \"".toList ++ q.answer.interpolate ++
    "\"\nUser Answer: \"".toList ++ q.userAnswer.interpolate ++ "\"".toList) ++
  "\n\nProvide a concise improvement tip under 2 sentences. Focus on knowledge gaps, not mistakes, and keep it encouraging.\n".toList

/-- The `data` of the assessment created by `saveQuizResult`. -/
def assessmentData (user : Profile) (results : List QuestionResult) (score : Rat)
    (improvementTip : Option Str) : AssessmentData :=
  { userId := user.id, quizScore := score, questions := results,
    category := "Technical".toList, improvementTip := improvementTip }

/-- The value of `improvementTip` before the assessment is created, with the
number of provider calls made for it: `null` without a wrong answer or when
the generation fails. -/
def improvementTipOf (s : Server) (user : Profile) (results : List QuestionResult) :
    Option Str × Nat :=
  if (wrongAnswers results).length > 0 then
    match runLLMOnce s.ai (improvementPrompt user (wrongAnswers results)) 0 with
    | .ok tip => (some tip, 1)
    | .error _ => (none, 1)
  else (none, 0)

/-- The action `saveQuizResult`. -/
def saveQuizResult (s : Server) (questions : List Question) (answers : List JsVal)
    (score : Rat) : Act Assessment :=
  withUser s fun user =>
    let results := questionResults questions answers
    let tip := improvementTipOf s user results
    let data := assessmentData user results score tip.1
    match s.db.assessmentCreate 1 data with
    | .ok assessment =>
      { outcome := .ok assessment, calls := tip.2, db := lookupLog s ++ [.assessmentCreate data] }
    | .error _ =>
      { outcome := .error (jsError "Failed to save quiz result"), calls := tip.2,
        db := lookupLog s ++ [.assessmentCreate data] }

/-- The action `getAssessments`. -/
def getAssessments (s : Server) : Act (List Assessment) :=
  withUser s fun user =>
    match s.db.assessmentFindMany 1 user.id with
    | .ok found =>
      { outcome := .ok found, calls := 0, db := lookupLog s ++ [.assessmentFindMany user.id] }
    | .error _ =>
      { outcome := .error (jsError "Failed to fetch assessments"), calls := 0,
        db := lookupLog s ++ [.assessmentFindMany user.id] }

/-! ## The database actions of `resume.js` -/

/-- The action `saveResume`. -/
def saveResume (s : Server) (content : Str) : Act Resume :=
  withUser s fun user =>
    { outcome := s.db.resumeUpsert 1 user.id content, calls := 0,
      db := lookupLog s ++ [.resumeUpsert user.id content] }

/-- The action `getResume`. -/
def getResume (s : Server) : Act (Option Resume) :=
  withUser s fun user =>
    { outcome := s.db.resumeFindUnique 1 user.id, calls := 0,
      db := lookupLog s ++ [.resumeFindUnique user.id] }

/-! ## The actions of `user.js` -/

/-- The object returned by `generateMockInsights`. -/
def mockInsights : Json :=
  .obj
    [ ("salaryRanges".toList,
        .arr [ .obj [ ("role".toList, .str "Software Engineer".toList),
                      ("min".toList, .num 50000), ("max".toList, .num 150000),
                      ("median".toList, .num 90000),
                      ("location".toList, .str "Global".toList) ] ]),
      ("growthRate".toList, .num (51 / 5)),
      ("demandLevel".toList, .str "High".toList),
      ("topSkills".toList,
        .arr [ .str "JavaScript".toList, .str "React".toList, .str "Node.js".toList,
               .str "SQL".toList ]),
      ("marketOutlook".toList, .str "Positive".toList),
      ("keyTrends".toList,
        .arr [ .str "AI adoption".toList, .str "Remote work".toList,
               .str "Cloud computing".toList ]),
      ("recommendedSkills".toList,
        .arr [ .str "Docker".toList, .str "Kubernetes".toList,
               .str "System Design".toList ]) ]

/-- The profile fields written by `updateUser`. -/
def profileUpdate (data : ProfileUpdate) : ProfileUpdate :=
  { industry := data.industry, experience := data.experience, bio := data.bio,
    skills := data.skills }

/-- The last step of the transaction of `updateUser`: the update of the
profile, after the operations of `log`. -/
def updateProfileStep (s : Server) (user : Profile) (data : ProfileUpdate) (log : List DbOp) :
    Act Profile :=
  match s.db.userUpdate log.length user.id (profileUpdate data) with
  | .ok updatedUser =>
    { outcome := .ok updatedUser, calls := 0,
      db := log ++ [.userUpdate user.id (profileUpdate data)] }
  | .error _ =>
    { outcome := .error (jsError "Failed to update profile"), calls := 0,
      db := log ++ [.userUpdate user.id (profileUpdate data)] }

/-- The action `updateUser`. -/
def updateUser (s : Server) (data : ProfileUpdate) : Act Profile :=
  withUser s fun user =>
    let log1 := lookupLog s ++ [.industryInsightFindUnique data.industry]
    match s.db.industryInsightFindUnique 1 data.industry with
    | .error _ =>
      { outcome := .error (jsError "Failed to update profile"), calls := 0, db := log1 }
    | .ok (some _) => updateProfileStep s user data log1
    | .ok none =>
      let insight : InsightData :=
        { industry := data.industry, insights := mockInsights,
          nextUpdate := s.now + 7 * 24 * 60 * 60 * 1000 }
      match s.db.industryInsightCreate 2 insight with
      | .error _ =>
        { outcome := .error (jsError "Failed to update profile"), calls := 0,
          db := log1 ++ [.industryInsightCreate insight] }
      | .ok _ => updateProfileStep s user data (log1 ++ [.industryInsightCreate insight])

/-- The object returned by `getUserOnboardingStatus`. -/
structure OnboardingStatus where
  isOnboarded : Bool
deriving DecidableEq, Repr

/-- The action `getUserOnboardingStatus`. -/
def getUserOnboardingStatus (s : Server) : Act OnboardingStatus :=
  if !truthy s.userId then { outcome := .error (jsError "Unauthorized"), calls := 0, db := [] }
  else
    match s.db.userFindUnique 0 (s.userId.getD []) with
    | .error _ =>
      { outcome := .error (jsError "Failed to check onboarding status"), calls := 0,
        db := lookupLog s }
    | .ok user =>
      { outcome := .ok { isOnboarded := truthy (user.bind fun u => u.industry) }, calls := 0,
        db := lookupLog s }

/-! ## The PDF renderer (`generatePDF` in `resume-builder.jsx`)

Lengths are in hundredths of a millimetre, so that the line height
`0.35 × font size` is a whole number. The page and the text measure of jsPDF
are parameters. An entry's `title` is its position, degree or project title,
its `organization` its company or institution. -/

/-- The font styles used by the renderer. -/
inductive FontStyle where
  | normal
  | bold
  | italic
deriving DecidableEq, Repr

/-- The font state of the document. -/
structure Font where
  size : Nat
  style : FontStyle
deriving DecidableEq, Repr

/-- The page size and the measure `doc.splitTextToSize` of jsPDF, which
depends on the font state. -/
structure Paper where
  width : Nat
  height : Nat
  splitTextToSize : Font → Str → Nat → List Str

/-- The kinds of text block the renderer writes. -/
inductive BlockKind where
  | name
  | contact
  | sectionHeader
  | body
  | entryTitle
  | duration
  | details
  | bullet
  | footer
deriving DecidableEq, Repr

/-- A call of `doc.text`: the lines written, the page and the height on it. -/
structure TextWrite where
  kind : BlockKind
  lines : List Str
  page : Nat
  y : Nat
deriving DecidableEq, Repr

/-- The document with the cursor `yPosition`: the number of pages, the current
page, the font state and the texts written so far. -/
structure PdfDoc where
  yPosition : Nat
  pages : Nat
  page : Nat
  font : Font
  texts : List TextWrite
deriving DecidableEq, Repr

/-- The constant `margin` (25 mm). -/
def margin : Nat := 2500

/-- The constant `contentWidth`. -/
def contentWidth (paper : Paper) : Nat := paper.width - 2 * margin

/-- The document of `new jsPDF(...)` with `yPosition = margin`: one page, the
default font. -/
def newDoc : PdfDoc :=
  { yPosition := margin, pages := 1, page := 1,
    font := { size := 16, style := .normal }, texts := [] }

/-- The call `doc.text(lines, x, yPosition)`. -/
def writeText (kind : BlockKind) (lines : List Str) (d : PdfDoc) : PdfDoc :=
  { d with texts := d.texts ++ [{ kind := kind, lines := lines, page := d.page, y := d.yPosition }] }

/-- The cursor moved down by `dy`. -/
def advance (dy : Nat) (d : PdfDoc) : PdfDoc := { d with yPosition := d.yPosition + dy }

/-- The guard of the three helpers: when `yPosition + height` exceeds the page
height minus the margin, `doc.addPage()` and `yPosition = margin`. -/
def breakIfOverflow (paper : Paper) (height : Nat) (d : PdfDoc) : PdfDoc :=
  if d.yPosition + height + margin > paper.height then
    { d with pages := d.pages + 1, page := d.pages + 1, yPosition := margin }
  else d

/-- The helper `addSectionHeader`; the titles passed are ASCII. -/
def addSectionHeader (paper : Paper) (title : Str) (d : PdfDoc) : PdfDoc :=
  let d := { d with font := { size := 16, style := .bold } }
  let lines := paper.splitTextToSize d.font (title.map Char.toUpper) (contentWidth paper)
  let d := breakIfOverflow paper (lines.length * 600) d
  let d := writeText .sectionHeader lines d
  let d := advance (lines.length * 600 + 200) d
  advance 800 d

/-- The helper `addBodyText`; `spacing` in hundredths of a millimetre. -/
def addBodyText (paper : Paper) (text : Str) (fontSize : Nat) (isBold : Bool) (spacing : Nat)
    (d : PdfDoc) : PdfDoc :=
  let d := { d with font := { size := fontSize, style := if isBold then .bold else .normal } }
  let lines := paper.splitTextToSize d.font text (contentWidth paper)
  let lineHeight := fontSize * 35
  let d := breakIfOverflow paper (lines.length * lineHeight) d
  let d := writeText .body lines d
  advance (lines.length * lineHeight + spacing) d

/-- The body of the loop of `addBulletList`, for one item (indent 5 mm). -/
def addBullet (paper : Paper) (d : PdfDoc) (item : Str) : PdfDoc :=
  let d := { d with font := { d.font with size := 11 } }
  let lines := paper.splitTextToSize d.font ("• ".toList ++ item) (contentWidth paper - 500)
  let lineHeight := 11 * 35
  let d := breakIfOverflow paper (lines.length * lineHeight) d
  let d := writeText .bullet lines d
  advance (lines.length * lineHeight + 200) d

/-- The helper `addBulletList`. -/
def addBulletList (paper : Paper) (items : List Str) (d : PdfDoc) : PdfDoc :=
  advance 300 (items.foldl (addBullet paper) d)

/-- The replacement of a leading bullet or dash with the white space after
it. -/
def stripBullet : Str → Str
  | [] => []
  | c :: cs => if c = '•' ∨ c = '-' then cs.dropWhile isWhiteSpace else c :: cs

/-- The array `descriptionLines` of an experience or project entry. -/
def descriptionLines (description : Str) : List Str :=
  ((splitLines description).filter fun line => truthy (some (trim line))).map
    fun line => stripBullet (trim line)

/-- The array `contactLines` after its four guarded pushes. -/
def contactLines (c : ContactInfo) : List Str :=
  let lines : List Str := []
  let lines := if truthy c.email then lines ++ ["Email: ".toList ++ c.email.getD []] else lines
  let lines := if truthy c.mobile then lines ++ ["Phone: ".toList ++ c.mobile.getD []] else lines
  let lines :=
    if truthy c.linkedin then lines ++ ["LinkedIn: ".toList ++ c.linkedin.getD []] else lines
  let lines :=
    if truthy c.twitter then lines ++ ["Twitter: ".toList ++ c.twitter.getD []] else lines
  lines

/-- The title line of an experience or education entry: both parts joined by
a bar, or the one that is there. -/
def entryTitleText (e : Entry) : Str :=
  if !e.title.isEmpty && !e.organization.isEmpty then e.title ++ " | ".toList ++ e.organization
  else if !e.title.isEmpty then e.title
  else if !e.organization.isEmpty then e.organization
  else []

/-- A single line written at the cursor without any guard, after the font is
set; the cursor then moves by `dy`. -/
def writeLine (kind : BlockKind) (font : Font) (text : Str) (dy : Nat) (d : PdfDoc) : PdfDoc :=
  advance dy (writeText kind [text] { d with font := font })

/-- The body of the loop over the experience entries. -/
def addExperience (paper : Paper) (d : PdfDoc) (exp : Entry) : PdfDoc :=
  let d :=
    if !(entryTitleText exp).isEmpty then
      writeLine .entryTitle { size := 12, style := .bold } (entryTitleText exp) 500 d
    else d
  let d :=
    if !exp.duration.isEmpty then
      writeLine .duration { size := 10, style := .italic } exp.duration 500 d
    else d
  let d :=
    if !exp.description.isEmpty then addBulletList paper (descriptionLines exp.description) d
    else d
  advance 800 d

/-- The body of the loop over the education entries. -/
def addEducation (paper : Paper) (d : PdfDoc) (edu : Entry) : PdfDoc :=
  let d :=
    if !(entryTitleText edu).isEmpty then
      writeLine .entryTitle { size := 12, style := .bold } (entryTitleText edu) 500 d
    else d
  if !edu.duration.isEmpty || !edu.description.isEmpty then
    let details : List Str := []
    let details := if !edu.duration.isEmpty then details ++ [edu.duration] else details
    let details := if !edu.description.isEmpty then details ++ [edu.description] else details
    let d := { d with font := { size := 10, style := .normal } }
    let lines := paper.splitTextToSize d.font (join " • ".toList details) (contentWidth paper)
    let d := writeText .details lines d
    advance (lines.length * 400 + 800) d
  else d

/-- The body of the loop over the project entries. -/
def addProject (paper : Paper) (d : PdfDoc) (proj : Entry) : PdfDoc :=
  let d :=
    if !proj.title.isEmpty then
      writeLine .entryTitle { size := 12, style := .bold } proj.title 500 d
    else d
  let d :=
    if !proj.duration.isEmpty then
      writeLine .duration { size := 10, style := .italic } proj.duration 500 d
    else d
  let d :=
    if !proj.description.isEmpty then addBulletList paper (descriptionLines proj.description) d
    else d
  advance 800 d

/-- The text of the skills block: the non-blank lines, trimmed, joined by a
bullet. -/
def skillsText (skills : Str) : Str :=
  join " • ".toList
    (((splitLines skills).filter fun l => truthy (some (trim l))).map trim)

/-- Everything `generatePDF` lays out before the page numbers. -/
def layoutPDF (paper : Paper) (fullName : Option Str) (f : FormValues) : PdfDoc :=
  let d := writeLine .name { size := 28, style := .bold } (displayName fullName) 1200 newDoc
  let d :=
    if (contactLines f.contactInfo).length > 0 then
      writeLine .contact { size := 10, style := .normal }
        (join " | ".toList (contactLines f.contactInfo)) 1500 d
    else d
  let d := advance 1200 d
  let d :=
    if truthy f.summary then
      addBodyText paper (f.summary.getD []) 11 false 800
        (addSectionHeader paper "Professional Summary".toList d)
    else d
  let d :=
    if truthy f.skills then
      addBodyText paper (skillsText (f.skills.getD [])) 11 false 800
        (addSectionHeader paper "Skills".toList d)
    else d
  let d :=
    if f.experience.length > 0 then
      f.experience.foldl (addExperience paper) (addSectionHeader paper "Work Experience".toList d)
    else d
  let d :=
    if f.education.length > 0 then
      f.education.foldl (addEducation paper) (addSectionHeader paper "Education".toList d)
    else d
  let d :=
    if f.projects.length > 0 then
      f.projects.foldl (addProject paper) (addSectionHeader paper "Projects".toList d)
    else d
  d

/-- The footer stamped on page `i` of `pageCount`, 10 mm above the bottom. -/
def stampPage (paper : Paper) (pageCount : Nat) (d : PdfDoc) (i : Nat) : PdfDoc :=
  let d := { d with page := i, font := { d.font with size := 8 } }
  { d with texts := d.texts ++
      [{ kind := .footer,
         lines := ["Page ".toList ++ (toString i).toList ++ " of ".toList ++
                    (toString pageCount).toList],
         page := i, y := paper.height - 1000 }] }

/-- The document of `generatePDF` when it is saved. -/
def generatePDF (paper : Paper) (fullName : Option Str) (f : FormValues) : PdfDoc :=
  let d := layoutPDF paper fullName f
  ((List.range d.pages).map fun i => i + 1).foldl (stampPage paper d.pages) d

/-! ## Sample collaborators -/

/-- The model every action asks for. -/
def geminiModel : Str := "gemini-2.5-flash".toList

/-- A profile without cached insight. -/
def sampleProfile : Profile :=
  { id := "u1".toList, industry := some "tech".toList, experience := some 5,
    skills := some ["Go".toList, "SQL".toList], bio := some "Backend engineer.".toList,
    industryInsight := none }

/-- A database that holds `sampleProfile` for every subject, accepts every
write and has nothing else stored. -/
def sampleDb : Db :=
  { userFindUnique := fun _ _ => .ok (some sampleProfile),
    userUpdate := fun _ _ d =>
      .ok { sampleProfile with
        industry := d.industry, experience := d.experience, bio := d.bio, skills := d.skills },
    coverLetterCreate := fun _ d => .ok { id := "c1".toList, data := d },
    coverLetterFindMany := fun _ _ => .ok [],
    coverLetterFindUnique := fun _ _ _ => .ok none,
    coverLetterDelete := fun _ _ _ => .error (jsError "Record to delete does not exist."),
    industryInsightFindUnique := fun _ _ => .ok none,
    industryInsightCreate := fun _ _ => .error (jsError "Invalid insight."),
    assessmentCreate := fun _ d => .ok { id := "a1".toList, data := d },
    assessmentFindMany := fun _ _ => .ok [],
    resumeUpsert := fun _ u c => .ok { userId := u, content := c },
    resumeFindUnique := fun _ _ => .ok none }

/-- The part of `JSON.parse` used by the samples: a text that is one string
literal without escape is parsed to its string; every other text is refused.
The samples apply it to such literals and to texts that are not JSON. -/
def parseStringLiteral (t : Str) : Option Json :=
  match t with
  | '"' :: rest =>
    match rest.reverse with
    | '"' :: body =>
      if body.all fun c => c != '"' && c != '\\' && 32 ≤ c.toNat then
        some (.str body.reverse)
      else none
    | _ => none
  | _ => none

/-- A provider that is unavailable (status 503) on its first call and answers
from the second call on. -/
def flakyOnceProvider : Provider := fun _ _ i =>
  if i < 1 then .fail { status := some 503, message := "The model is overloaded.".toList }
  else .ok (some "Dear hiring team, I am glad to apply.".toList)

/-- A provider whose quota is exceeded (status 429). -/
def quotaProvider : Provider := fun _ _ _ =>
  .fail { status := some 429, message := "Quota exceeded.".toList }

/-- A provider that answers with a text that is not JSON. -/
def proseProvider : Provider := fun _ _ _ => .ok (some "Sorry, here are some thoughts.".toList)

/-- A provider that answers with a fenced JSON string which holds a fence
marker itself. -/
def fencedProvider : Provider := fun _ _ _ => .ok (some "```json\n\"see ```\"\n```".toList)

/-- A signed-in user with a profile, the sample database, and the given
provider. -/
def sampleServer (ai : Provider) : Server :=
  { userId := some "user_1".toList, db := sampleDb, ai := ai, parse := parseStringLiteral,
    describe := fun _ => "ApiError: Quota exceeded.".toList, now := 1700000000000 }

/-- A request without authenticated subject. -/
def anonymousServer (ai : Provider) : Server :=
  { sampleServer ai with userId := none }

/-- A signed-in user without profile record. -/
def newcomerServer (ai : Provider) : Server :=
  { sampleServer ai with db := { sampleDb with userFindUnique := fun _ _ => .ok none } }

/-- A job to apply for. -/
def sampleJob : JobData :=
  { jobTitle := "Engineer".toList, companyName := "Acme".toList,
    jobDescription := "Build services.".toList }

/-- A quiz of two questions. -/
def sampleQuestions : List Question :=
  [ { question := .str "What is a mutex?".toList, correctAnswer := .str "A lock".toList,
      explanation := .str "It guards a critical section.".toList },
    { question := .str "What is a B-tree?".toList, correctAnswer := .str "An index".toList,
      explanation := .str "It keeps keys sorted.".toList } ]

/-- The answers of a user who got the second question wrong. -/
def sampleAnswers : List JsVal := [.str "A lock".toList, .str "A heap".toList]

/-- A4 paper with a measure that never wraps. -/
def a4 : Paper :=
  { width := 21000, height := 29700, splitTextToSize := fun _ t _ => [t] }

/-- A form with twenty experience entries that hold a position only. -/
def longForm : FormValues :=
  { blankForm with
    experience := List.replicate 20
      { title := "Engineer".toList, organization := [], duration := [], description := [] } }

/-! ## The entry split of the preview (`resume-preview.jsx`) -/

/-- The call `content.split("\n\n")` of the experience, education and
projects sections: the pieces between blank-line separators, found from the
left. -/
def splitBlank : Str → List Str
  | [] => [[]]
  | [c] => [[c]]
  | c :: d :: cs =>
    if c = '\n' ∧ d = '\n' then [] :: splitBlank cs
    else
      match splitBlank (d :: cs) with
      | [] => [[c]]
      | l :: ls => (c :: l) :: ls

/-! ## Reading the quiz result from the claims -/

/-- The result built for question `q` at index `i`. -/
def resultOf (answers : List JsVal) (i : Nat) (q : Question) : QuestionResult :=
  { question := q.question,
    answer := q.correctAnswer,
    userAnswer := answers.getD i .undefined,
    isCorrect := decide (q.correctAnswer = answers.getD i .undefined),
    explanation := q.explanation }

/-- A quiz of one question that lacks its `correctAnswer`. -/
def keylessQuestions : List Question :=
  [ { question := .str "What is a mutex?".toList, correctAnswer := .undefined,
      explanation := .undefined } ]

/-- A provider that answers with a fenced JSON object. -/
def objectProvider : Provider := fun _ _ _ =>
  .ok (some "```json\n\x7b\"items\": []\x7d\n```".toList)

/-- A stand-in for `JSON.parse` on the answer of `objectProvider`: the text
`\x7b"items": []\x7d` is parsed to the object with the one field `items`, an
empty array; every other text is refused. -/
def parseItemsObject (t : Str) : Option Json :=
  if t = "\x7b\"items\": []\x7d".toList then some (.obj [("items".toList, .arr [])]) else none

/-! ## Reading the renderer from the claims -/

/-- The footer of page `i` of `pageCount`. -/
def pageFooter (paper : Paper) (pageCount i : Nat) : TextWrite :=
  { kind := .footer,
    lines := ["Page ".toList ++ (toString i).toList ++ " of ".toList ++
               (toString pageCount).toList],
    page := i, y := paper.height - 1000 }

/-- The document `e` holds the texts of `d` and, after them, texts that are
not footers. -/
def Grows (d e : PdfDoc) : Prop :=
  ∃ ws : List TextWrite, e.texts = d.texts ++ ws ∧ ∀ w ∈ ws, w.kind ≠ BlockKind.footer

/-- A bullet or dash glyph. -/
def isGlyph (c : Char) : Bool := c == '•' || c == '-'

/-- A text whose first character is a bullet or dash glyph. -/
def startsWithGlyph : Str → Bool
  | [] => false
  | c :: _ => isGlyph c

/-- A provider that answers with a fenced quiz of one question. -/
def quizProvider : Provider := fun _ _ _ =>
  .ok (some "```json\n\x7b\"note\": \"draft\", \"questions\": [\"What is a mutex?\"]\x7d\n```".toList)

/-- A stand-in for `JSON.parse` on the answer of `quizProvider`: the text of
the quiz object is parsed to the object with its two fields; every other text
is refused. -/
def parseQuizObject (t : Str) : Option Json :=
  if t = "\x7b\"note\": \"draft\", \"questions\": [\"What is a mutex?\"]\x7d".toList then
    some (.obj [ ("note".toList, .str "draft".toList),
                 ("questions".toList, .arr [.str "What is a mutex?".toList]) ])
  else none

/-! ## Lemmas on the string primitives -/

theorem splitLines_ne_nil (s : Str) : splitLines s ≠ [] := by
  induction s with
  | nil => simp [splitLines]
  | cons c cs ih =>
    unfold splitLines
    split
    · simp
    · split <;> simp

theorem splitLines_cons_nl (cs : Str) : splitLines ('\n' :: cs) = [] :: splitLines cs := by
  simp [splitLines]

theorem splitLines_cons_of_ne (c : Char) (cs : Str) (hc : c ≠ '\n') :
    splitLines (c :: cs) =
      (c :: (splitLines cs).headD []) :: (splitLines cs).tail := by
  have h := splitLines_ne_nil cs
  rw [splitLines, if_neg hc]
  cases hs : splitLines cs with
  | nil => exact absurd hs h
  | cons l ls => simp

/-- Splitting at a line feed splits the list of lines. -/
theorem splitLines_append_nl (a b : Str) :
    splitLines (a ++ '\n' :: b) = splitLines a ++ splitLines b := by
  induction a with
  | nil => simp [splitLines]
  | cons c cs ih =>
    by_cases hc : c = '\n'
    · subst hc
      simp [splitLines_cons_nl, ih]
    · rw [List.cons_append, splitLines_cons_of_ne c _ hc, splitLines_cons_of_ne c _ hc, ih]
      have h := splitLines_ne_nil cs
      cases hs : splitLines cs with
      | nil => exact absurd hs h
      | cons l ls => simp

theorem splitLines_of_no_nl (a : Str) (h : '\n' ∉ a) : splitLines a = [a] := by
  induction a with
  | nil => simp [splitLines]
  | cons c cs ih =>
    have hc : c ≠ '\n' := fun e => h (by simp [e])
    have hcs : '\n' ∉ cs := fun e => h (by simp [e])
    rw [splitLines_cons_of_ne c _ hc, ih hcs]
    simp

theorem no_nl_of_mem_splitLines (s : Str) : ∀ l ∈ splitLines s, '\n' ∉ l := by
  induction s with
  | nil => simp [splitLines]
  | cons c cs ih =>
    by_cases hc : c = '\n'
    · subst hc
      rw [splitLines_cons_nl]
      intro l hl
      rcases List.mem_cons.mp hl with h | h
      · simp [h]
      · exact ih l h
    · rw [splitLines_cons_of_ne c _ hc]
      have h := splitLines_ne_nil cs
      cases hs : splitLines cs with
      | nil => exact absurd hs h
      | cons l0 ls =>
        rw [hs] at ih
        intro l hl
        simp only [List.headD_cons, List.tail_cons, List.mem_cons] at hl
        rcases hl with h | h
        · subst h
          intro hm
          rcases List.mem_cons.mp hm with h1 | h1
          · exact hc h1.symm
          · exact ih l0 (by simp) h1
        · exact ih l (by simp [h])

theorem join_cons_cons (sep x y : Str) (xs : List Str) :
    join sep (x :: y :: xs) = x ++ sep ++ join sep (y :: xs) := rfl

theorem join_cons_of_ne_nil (sep x : Str) (xs : List Str) (h : xs ≠ []) :
    join sep (x :: xs) = x ++ sep ++ join sep xs := by
  cases xs with
  | nil => exact absurd rfl h
  | cons y ys => rfl

/-- Joining with line feeds and splitting again gives the lines back. -/
theorem splitLines_join (ls : List Str) (hne : ls ≠ []) (h : ∀ l ∈ ls, '\n' ∉ l) :
    splitLines (join "\n".toList ls) = ls := by
  induction ls with
  | nil => exact absurd rfl hne
  | cons x xs ih =>
    cases xs with
    | nil => simpa [join] using splitLines_of_no_nl x (h x (by simp))
    | cons y ys =>
      rw [join_cons_cons]
      have e : x ++ "\n".toList ++ join "\n".toList (y :: ys)
          = x ++ '\n' :: join "\n".toList (y :: ys) := by simp
      rw [e, splitLines_append_nl, splitLines_of_no_nl x (h x (by simp)),
        ih (by simp) (fun l hl => h l (List.mem_cons_of_mem _ hl))]
      rfl

/-- Splitting and joining with line feeds gives the text back. -/
theorem join_splitLines (s : Str) : join "\n".toList (splitLines s) = s := by
  induction s with
  | nil => simp [splitLines, join]
  | cons c cs ih =>
    by_cases hc : c = '\n'
    · subst hc
      rw [splitLines_cons_nl, join_cons_of_ne_nil _ _ _ (splitLines_ne_nil cs), ih]
      rfl
    · rw [splitLines_cons_of_ne c _ hc]
      have h := splitLines_ne_nil cs
      cases hs : splitLines cs with
      | nil => exact absurd hs h
      | cons l ls =>
        rw [hs] at ih
        simp only [List.headD_cons, List.tail_cons]
        cases ls with
        | nil => simp [join] at ih ⊢; exact ih
        | cons m ms =>
          rw [join_cons_cons] at ih ⊢
          rw [← ih]
          simp

/-! ## Lemmas on `trim` -/

theorem trimEnd_eq_nil_iff (s : Str) : trimEnd s = [] ↔ isBlank s = true := by
  simp [trimEnd, isBlank, List.dropWhile_eq_nil_iff]

theorem all_dropWhile_iff (s : Str) :
    (s.dropWhile isWhiteSpace).all isWhiteSpace = true ↔ s.all isWhiteSpace = true := by
  induction s with
  | nil => simp
  | cons c cs ih =>
    by_cases hc : isWhiteSpace c = true
    · simp [List.dropWhile_cons, hc, ih]
    · simp [List.dropWhile_cons, hc]

/-- A line trims to the empty string exactly when it is blank. -/
theorem trim_eq_nil_iff (s : Str) : trim s = [] ↔ isBlank s = true := by
  rw [trim, trimEnd_eq_nil_iff, trimStart, isBlank, all_dropWhile_iff, isBlank]

theorem truthy_trim (s : Str) : truthy (some (trim s)) = !isBlank s := by
  cases hb : isBlank s with
  | true => simp [truthy, (trim_eq_nil_iff s).mpr hb]
  | false =>
    have : trim s ≠ [] := fun e => by
      rw [(trim_eq_nil_iff s).mp e] at hb
      exact Bool.noConfusion hb
    simp [truthy, this]

theorem replaceFirst_h2 (line : Str) (h : startsWith line h2 = true) :
    replaceFirst h2 [] line = remainder line := by
  cases line with
  | nil => simp [startsWith, h2] at h
  | cons c cs =>
    have h1 : h2.isPrefixOf (c :: cs) = true := h
    rw [replaceFirst, if_pos h1]
    simp [remainder, h2]

theorem not_isBlank_of_h3 (line : Str) (h : startsWith line h3 = true) :
    isBlank line = false := by
  cases line with
  | nil => simp [startsWith, h3] at h
  | cons c cs =>
    have hc : c = '#' := by
      simp [startsWith, h3, List.isPrefixOf] at h
      exact h.1.symm
    subst hc
    simp [isBlank]
    intro h
    exact absurd h (by decide)

/-! ## The scan computes the header blocks -/

theorem parseStep_header (st : ParseState) (line : Str) (h : isHeader line = true) :
    parseStep st line =
      { sections := pushCurrent st,
        currentSection := some (trim (remainder line)),
        currentContent := [] } := by
  have h1 : startsWith line h2 = true := h
  rw [parseStep, if_pos h1, replaceFirst_h2 line h1]

theorem parseStep_body (st : ParseState) (line : Str) (h : isHeader line = false) :
    parseStep st line =
      { st with currentContent := st.currentContent ++ [line].filter fun l => !isBlank l } := by
  have h1 : ¬ startsWith line h2 = true := by
    intro e
    rw [isHeader, e] at h
    exact Bool.noConfusion h
  rw [parseStep, if_neg h1]
  by_cases h3c : startsWith line h3 = true
  · rw [if_pos h3c]
    simp [not_isBlank_of_h3 line h3c]
  · rw [if_neg h3c, truthy_trim]
    cases hb : isBlank line <;> simp [List.filter_cons, hb]

theorem pushCurrent_open (secs : List Section) (t : Str) (buf : List Str) :
    pushCurrent { sections := secs, currentSection := some t, currentContent := buf } =
      secs ++ [({ title := t, content := trim (join "\n".toList buf) } : Section)].filter
        fun s => !s.title.isEmpty := by
  cases t with
  | nil => simp [pushCurrent, truthy]
  | cons c cs => simp [pushCurrent, truthy]

/-- The scan from any state: the open section takes the lines up to the next
header, and every later header line opens a section of its own. -/
theorem foldl_parseStep (lines : List Str) (st : ParseState) :
    pushCurrent (lines.foldl parseStep st) =
      pushCurrent { st with
        currentContent := st.currentContent ++
          (lines.takeWhile fun x => !isHeader x).filter fun l => !isBlank l } ++
      ((headerBlocks lines).map sectionOf).filter fun s => !s.title.isEmpty := by
  induction lines generalizing st with
  | nil => simp [headerBlocks]
  | cons l ls ih =>
    rw [List.foldl_cons]
    cases hh : isHeader l with
    | true =>
      rw [parseStep_header st l hh, ih]
      simp only [List.nil_append, headerBlocks, hh, if_true, List.map_cons]
      rw [pushCurrent_open]
      have e : ({ st with
          currentContent := st.currentContent ++
            ((l :: ls).takeWhile fun x => !isHeader x).filter fun l => !isBlank l } : ParseState)
          = st := by
        simp [List.takeWhile_cons, hh]
      rw [e, List.filter_cons]
      simp only [sectionOf, List.append_assoc]
      by_cases ht : (trim (remainder l)).isEmpty = true <;> simp [ht]
    | false =>
      rw [parseStep_body st l hh, ih]
      simp only [headerBlocks, hh, List.takeWhile_cons, Bool.not_false, if_true]
      congr 2
      cases hb : isBlank l <;> simp [List.filter_cons, hb]

/-- The parser, read from the spec: one section per header line whose title
is not empty, with the non-blank lines of its block. -/
theorem parseLines_eq (lines : List Str) :
    parseLines lines =
      ((headerBlocks lines).map sectionOf).filter fun s => !s.title.isEmpty := by
  rw [parseLines, foldl_parseStep]
  simp [pushCurrent, truthy]

theorem headerBlocks_single_blank : headerBlocks [[]] = [] := by
  simp [headerBlocks, isHeader, startsWith, h2]

/-- The parser on a text, read from the spec (the empty text included). -/
theorem parsedContent_eq (content : Str) :
    parsedContent content =
      ((headerBlocks (splitLines content)).map sectionOf).filter
        fun s => !s.title.isEmpty := by
  cases content with
  | nil => simp [parsedContent, splitLines, headerBlocks_single_blank]
  | cons c cs => simp [parsedContent, parseLines_eq]

theorem headerBlocks_dropWhile (lines : List Str) :
    headerBlocks (lines.dropWhile fun l => !isHeader l) = headerBlocks lines := by
  induction lines with
  | nil => rfl
  | cons l ls ih =>
    cases hh : isHeader l with
    | true => simp [List.dropWhile_cons, hh]
    | false => simp [List.dropWhile_cons, hh, headerBlocks, ih]

theorem headerBlocks_eq_nil (lines : List Str) (h : lines.any isHeader = false) :
    headerBlocks lines = [] := by
  induction lines with
  | nil => rfl
  | cons l ls ih =>
    simp only [List.any_cons, Bool.or_eq_false_iff] at h
    simp [headerBlocks, h.1, ih h.2]

theorem headerBlocks_fst (lines : List Str) :
    (headerBlocks lines).map Prod.fst = lines.filter isHeader := by
  induction lines with
  | nil => rfl
  | cons l ls ih =>
    cases hh : isHeader l with
    | true => simp [headerBlocks, hh, List.filter_cons, ih]
    | false => simp [headerBlocks, hh, List.filter_cons, ih]

theorem mem_of_mem_headerBlocks (lines : List Str) :
    ∀ b ∈ headerBlocks lines, ∀ l ∈ b.2, l ∈ lines := by
  induction lines with
  | nil => simp [headerBlocks]
  | cons l ls ih =>
    intro b hb x hx
    cases hh : isHeader l with
    | true =>
      simp only [headerBlocks, hh, if_true, List.mem_cons] at hb
      rcases hb with hb | hb
      · subst hb
        exact List.mem_cons_of_mem _ ((List.takeWhile_sublist _).subset hx)
      · exact List.mem_cons_of_mem _ (ih b hb x hx)
    | false =>
      simp only [headerBlocks, hh] at hb
      exact List.mem_cons_of_mem _ (ih b hb x hx)

/-! ## Lines of a trimmed text -/

theorem dropWhile_append_of_not_blank (k x : Str) (h : isBlank k = false) :
    (k ++ x).dropWhile isWhiteSpace = k.dropWhile isWhiteSpace ++ x := by
  induction k with
  | nil => simp [isBlank] at h
  | cons c cs ih =>
    by_cases hc : isWhiteSpace c = true
    · have hcs : isBlank cs = false := by
        simp only [isBlank, List.all_cons, hc, Bool.true_and] at h
        exact h
      simp [List.dropWhile_cons, hc, ih hcs]
    · simp [List.dropWhile_cons, hc]

theorem isBlank_reverse (k : Str) : isBlank k.reverse = isBlank k := by
  simp [isBlank, List.all_eq]

theorem trimEnd_append_of_not_blank (p k : Str) (h : isBlank k = false) :
    trimEnd (p ++ k) = p ++ trimEnd k := by
  have h1 : isBlank k.reverse = false := by rw [isBlank_reverse]; exact h
  simp [trimEnd, List.reverse_append, dropWhile_append_of_not_blank _ _ h1]

theorem isBlank_trimStart (k : Str) : isBlank (trimStart k) = isBlank k := by
  have h := all_dropWhile_iff k
  simp only [isBlank, trimStart]
  cases h1 : (k.dropWhile isWhiteSpace).all isWhiteSpace <;>
    cases h2 : k.all isWhiteSpace <;> simp_all

theorem isBlank_trimEnd (k : Str) : isBlank (trimEnd k) = isBlank k := by
  have h := isBlank_trimStart k.reverse
  rw [isBlank_reverse] at h
  rw [trimEnd, isBlank_reverse]
  exact h

theorem mem_of_mem_trimStart (k : Str) (c : Char) (h : c ∈ trimStart k) : c ∈ k :=
  (List.dropWhile_suffix _).subset h

theorem mem_of_mem_trimEnd (k : Str) (c : Char) (h : c ∈ trimEnd k) : c ∈ k := by
  have h1 : c ∈ k.reverse.dropWhile isWhiteSpace := by
    simpa [trimEnd] using h
  simpa using (List.dropWhile_suffix _).subset h1

theorem join_cons_eq (sep k : Str) (rest : List Str) :
    join sep (k :: rest) = k ++ (if rest = [] then [] else sep ++ join sep rest) := by
  cases rest with
  | nil => simp [join]
  | cons y ys => simp [join]

theorem join_concat (sep k : Str) (init : List Str) :
    join sep (init ++ [k]) = (if init = [] then [] else join sep init ++ sep) ++ k := by
  induction init with
  | nil => simp [join]
  | cons x xs ih =>
    cases xs with
    | nil => simp [join]
    | cons y ys =>
      have e : (x :: y :: ys) ++ [k] = x :: y :: (ys ++ [k]) := rfl
      rw [e, join_cons_cons]
      have e2 : y :: (ys ++ [k]) = (y :: ys) ++ [k] := rfl
      rw [e2, ih]
      simp [join_cons_cons]

/-- The lines of a trimmed join of non-blank lines are not blank. -/
theorem lines_trim_join (ks : List Str) (hk : ∀ l ∈ ks, goodLine l) (hne : ks ≠ []) :
    ∃ ks2 : List Str, ks2.length = ks.length ∧ (∀ l ∈ ks2, goodLine l) ∧
      trim (join "\n".toList ks) = join "\n".toList ks2 := by
  cases ks with
  | nil => exact absurd rfl hne
  | cons k rest =>
    have hk0 := hk k (by simp)
    have e1 : trimStart (join "\n".toList (k :: rest)) =
        join "\n".toList (trimStart k :: rest) := by
      rw [join_cons_eq, join_cons_eq, trimStart, dropWhile_append_of_not_blank _ _ hk0.2]
      rfl
    have g1 : ∀ l ∈ trimStart k :: rest, goodLine l := by
      intro l hl
      rcases List.mem_cons.mp hl with h | h
      · subst h
        exact ⟨fun hm => hk0.1 (mem_of_mem_trimStart _ _ hm), by rw [isBlank_trimStart]; exact hk0.2⟩
      · exact hk l (List.mem_cons_of_mem _ h)
    have hne1 : trimStart k :: rest ≠ [] := by simp
    obtain ⟨init, last, e2⟩ : ∃ init last, trimStart k :: rest = init ++ [last] :=
      ⟨_, _, (List.dropLast_append_getLast hne1).symm⟩
    have hlast := g1 last (by rw [e2]; simp)
    refine ⟨init ++ [trimEnd last], ?_, ?_, ?_⟩
    · have := congrArg List.length e2
      simp at this ⊢
      omega
    · intro l hl
      rcases List.mem_append.mp hl with h | h
      · exact g1 l (by rw [e2]; exact List.mem_append_left _ h)
      · have hl2 : l = trimEnd last := by simpa using h
        subst hl2
        exact ⟨fun hm => hlast.1 (mem_of_mem_trimEnd _ _ hm), by rw [isBlank_trimEnd]; exact hlast.2⟩
    · rw [trim, e1, e2, join_concat, join_concat, trimEnd_append_of_not_blank _ _ hlast.2]

theorem no_blank_line_in_trim_join (ks : List Str) (hk : ∀ l ∈ ks, goodLine l) :
    ∀ l ∈ splitLines (trim (join "\n".toList ks)), isBlank l = true →
      trim (join "\n".toList ks) = [] := by
  intro l hl hb
  cases hks : ks with
  | nil => simp [join, trim, trimEnd, trimStart]
  | cons k rest =>
    have hne : ks ≠ [] := by simp [hks]
    obtain ⟨ks2, hlen, hg, e⟩ := lines_trim_join ks hk hne
    have hne2 : ks2 ≠ [] := by
      intro h0
      rw [h0] at hlen
      exact hne (List.length_eq_zero.mp hlen.symm)
    rw [e, splitLines_join ks2 hne2 (fun x hx => (hg x hx).1)] at hl
    rw [(hg l hl).2] at hb
    exact Bool.noConfusion hb

/-! ## The section parser: claims -/

/-- C6: the result of the section parser depends only on the text from the
first header line onward: parsing a text gives what parsing its part from the
first line starting with `## ` gives, the lines before it are discarded, and a
text without header line (the empty text included) parses to no section. -/
theorem parsedContent_from_first_header (content : Str) :
    parsedContent content = parsedContent (fromFirstHeader content) ∧
    ((splitLines content).any isHeader = false → parsedContent content = []) ∧
    parsedContent [] = [] := by
  refine ⟨?_, ?_, rfl⟩
  · cases hr : (splitLines content).dropWhile fun l => !isHeader l with
    | nil =>
      have h0 : headerBlocks (splitLines content) = [] := by
        rw [← headerBlocks_dropWhile, hr]
        rfl
      rw [parsedContent_eq, h0, fromFirstHeader, hr]
      rfl
    | cons l ls =>
      have hno : ∀ x ∈ l :: ls, '\n' ∉ x := by
        intro x hx
        rw [← hr] at hx
        exact no_nl_of_mem_splitLines content x ((List.dropWhile_suffix _).subset hx)
      rw [parsedContent_eq content, parsedContent_eq (fromFirstHeader content), fromFirstHeader,
        hr, splitLines_join _ (by simp) hno, ← hr, headerBlocks_dropWhile]
  · intro h
    rw [parsedContent_eq, headerBlocks_eq_nil _ h]
    rfl

/-- The titles of the sections, when no header line has a blank remainder. -/
theorem titles_of_headerLines (content : Str)
    (h : ∀ l ∈ headerLines content, isBlank (remainder l) = false) :
    (parsedContent content).map (fun s => s.title) =
      (headerLines content).map fun l => trim (remainder l) := by
  rw [parsedContent_eq, headerLines, ← headerBlocks_fst]
  have hall : ∀ b ∈ headerBlocks (splitLines content),
      (fun s : Section => !s.title.isEmpty) (sectionOf b) = true := by
    intro b hb
    have hl : b.1 ∈ headerLines content := by
      rw [headerLines, ← headerBlocks_fst]
      exact List.mem_map_of_mem _ hb
    have hnb := h b.1 hl
    have hne : trim (remainder b.1) ≠ [] := fun e => by
      rw [(trim_eq_nil_iff _).mp e] at hnb
      exact Bool.noConfusion hnb
    cases ht : trim (remainder b.1) with
    | nil => exact absurd ht hne
    | cons c cs => simp [sectionOf, ht]
  rw [List.filter_eq_self.mpr (by
    intro s hs
    obtain ⟨b, hb, e⟩ := List.mem_map.mp hs
    rw [← e]
    exact hall b hb)]
  simp [sectionOf, Function.comp_def]

/-- C7, as the code has it: when the remainder of every header line is not
blank, the parser returns exactly one section per line starting with `## `,
in line order, and the title of each is the remainder of its line after the
marker, trimmed of leading and trailing white space. -/
theorem parsedContent_titles (content : Str)
    (h : ∀ l ∈ headerLines content, isBlank (remainder l) = false) :
    (parsedContent content).map (fun s => s.title) =
      (headerLines content).map fun l => trim (remainder l) :=
  titles_of_headerLines content h

/-- Witness of C7 on a text of two sections, the second with a padded title. -/
theorem parsedContent_titles_witness :
    (parsedContent "intro\n## A\nx\n##  B \ny".toList).map (fun s => s.title) =
      ["A".toList, "B".toList] :=
  parsedContent_titles "intro\n## A\nx\n##  B \ny".toList (by decide)

/-- Counterexample of C7 as stated: on the one-line text `##  A` the title is
`A`, not the remainder ` A` of the line after its marker. -/
theorem parsedContent_title_not_remainder :
    (parsedContent "##  A".toList).map (fun s => s.title) ≠
      (headerLines "##  A".toList).map remainder := by
  decide

/-- A header line whose remainder is blank opens a section with the falsy
title `""`: the guard `if (currentSection)` never pushes it, and its lines are
lost. -/
theorem parsedContent_blank_title_dropped :
    parsedContent "## \nx".toList = [] ∧
    parsedContent "## A\na\n##  \nx\n## B\nb".toList =
      [{ title := "A".toList, content := "a".toList },
       { title := "B".toList, content := "b".toList }] := by
  decide

/-- C8: the contents of the sections returned are, in order, those of the
header lines kept: each is the join with line feeds of the non-blank lines
between its header line and the next one (or the end of the input), taken as
they are and in order, trimmed of leading and trailing white space; and no
line of a content is made of white space only. -/
theorem parsedContent_contents (content : Str) :
    (parsedContent content).map (fun s => s.content) =
      (((headerBlocks (splitLines content)).filter
          fun b => !(trim (remainder b.1)).isEmpty).map
        fun b => trim (join "\n".toList (b.2.filter fun l => !isBlank l))) ∧
    (∀ s ∈ parsedContent content, ∀ l ∈ splitLines s.content,
      isBlank l = true → s.content = []) := by
  constructor
  · rw [parsedContent_eq, List.filter_map, List.map_map]
    rfl
  · intro s hs
    rw [parsedContent_eq] at hs
    obtain ⟨b, hb, e⟩ := List.mem_map.mp (List.mem_of_mem_filter hs)
    rw [← e]
    apply no_blank_line_in_trim_join
    intro l hl
    have hl2 := List.mem_filter.mp hl
    refine ⟨?_, ?_⟩
    · exact no_nl_of_mem_splitLines content l (mem_of_mem_headerBlocks _ b hb l hl2.1)
    · simpa using hl2.2

/-! ## Header lines of the assembled document -/

theorem isHeader_nil : isHeader [] = false := rfl

theorem isHeader_h2_append (t : Str) : isHeader (h2 ++ t) = true := by
  simp [isHeader, startsWith, h2]

theorem headerLines_nil : headerLines [] = [] := rfl

theorem headerLines_append_blank (a b : Str) :
    headerLines (a ++ "\n\n".toList ++ b) = headerLines a ++ headerLines b := by
  have e : a ++ "\n\n".toList ++ b = a ++ '\n' :: ('\n' :: b) := by simp
  rw [headerLines, e, splitLines_append_nl, splitLines_cons_nl, List.filter_append,
    List.filter_cons]
  simp [headerLines, isHeader_nil]

theorem headerLines_join_blocks (bs : List Str) :
    headerLines (join "\n\n".toList bs) = bs.flatMap headerLines := by
  induction bs with
  | nil => rfl
  | cons x xs ih =>
    cases xs with
    | nil => simp [join]
    | cons y ys =>
      rw [join_cons_cons, headerLines_append_blank, ih]
      simp [List.flatMap_cons]

theorem headerLines_h2_line (t : Str) (h : '\n' ∉ t) : headerLines (h2 ++ t) = [h2 ++ t] := by
  have hno : '\n' ∉ h2 ++ t := by
    intro hm
    rcases List.mem_append.mp hm with h1 | h1
    · exact absurd h1 (by decide)
    · exact h h1
  rw [headerLines, splitLines_of_no_nl _ hno, List.filter_cons, isHeader_h2_append]
  rfl

theorem headerLines_block (t body : Str) (h : '\n' ∉ t) :
    headerLines (h2 ++ t ++ "\n\n".toList ++ body) = (h2 ++ t) :: headerLines body := by
  rw [headerLines_append_blank, headerLines_h2_line t h]
  rfl

theorem headerLines_optBlock (t body : Str) (h : '\n' ∉ t) (hb : headerFree body) :
    (optBlock t body).flatMap headerLines = if body.isEmpty then [] else [h2 ++ t] := by
  unfold optBlock
  by_cases he : body.isEmpty = true
  · simp [he]
  · have hf : body.isEmpty = false := by simpa using he
    simp only [hf, Bool.false_eq_true, if_false]
    rw [List.flatMap_cons, headerLines_block t body h, hb]
    rfl

theorem entriesBody_isEmpty (render : Entry → Str) (entries : List Entry) :
    (entriesBody render entries).isEmpty = entries.isEmpty := by
  cases entries with
  | nil => rfl
  | cons e es => simp [entriesBody, join_cons_eq, h3]

theorem headerFree_entriesBody (render : Entry → Str) (entries : List Entry)
    (h : ∀ e ∈ entries, headerFree (h3 ++ render e)) :
    headerFree (entriesBody render entries) := by
  unfold headerFree entriesBody
  rw [headerLines_join_blocks]
  induction entries with
  | nil => rfl
  | cons e es ih =>
    rw [List.map_cons, List.flatMap_cons, h e (by simp),
      ih (fun x hx => h x (List.mem_cons_of_mem _ hx))]
    rfl

/-! ## The blocks of the assembled document -/

theorem truthy_some_block (t : Str) : truthy (some (h2 ++ t)) = true := by
  simp [truthy, h2]

theorem keep_jsAnd (a : Option Str) (t : Str) :
    ([jsAnd a (h2 ++ t ++ "\n\n".toList ++ a.getD [])].filter truthy).map (fun b => b.getD []) =
      optBlock t (a.getD []) := by
  cases a with
  | none => simp [jsAnd, truthy, optBlock]
  | some v =>
    cases v with
    | nil => simp [jsAnd, truthy, optBlock]
    | cons c cs => simp [jsAnd, truthy, optBlock, h2]

theorem keep_entries (render : Entry → Str) (entries : List Entry) (t : Str) :
    ([entriesToMarkdown render entries t].filter truthy).map (fun b => b.getD []) =
      optBlock t (entriesBody render entries) := by
  cases entries with
  | nil => simp [entriesToMarkdown, truthy, optBlock, entriesBody, join]
  | cons e es =>
    have hne : (entriesBody render (e :: es)).isEmpty = false := by
      rw [entriesBody_isEmpty]
      rfl
    simp only [optBlock, hne]
    simp [entriesToMarkdown, truthy, entriesBody, h2]

theorem getContactMarkdown_eq (fullName : Option Str) (c : ContactInfo) :
    getContactMarkdown fullName c =
      h2 ++ displayName fullName ++
        (if (contactParts c).isEmpty then []
         else "\n\n".toList ++ join " | ".toList (contactParts c)) := by
  unfold getContactMarkdown
  cases h : contactParts c with
  | nil => simp
  | cons x xs => simp

/-- The blocks kept by the assembler: the contact block always, then the
block of every section whose body is not empty. -/
theorem sectionBlocks_eq (render : Entry → Str) (fullName : Option Str) (f : FormValues) :
    sectionBlocks render fullName f =
      getContactMarkdown fullName f.contactInfo :: bodyBlocks render f := by
  have hc : truthy (some (getContactMarkdown fullName f.contactInfo)) = true := by
    rw [getContactMarkdown_eq, List.append_assoc]
    exact truthy_some_block _
  have e1 := keep_jsAnd f.summary "Professional Summary".toList
  have e2 := keep_jsAnd f.skills "Skills".toList
  have e3 := keep_entries render f.experience "Work Experience".toList
  have e4 := keep_entries render f.education "Education".toList
  have e5 := keep_entries render f.projects "Projects".toList
  unfold sectionBlocks candidateBlocks bodyBlocks
  rw [← e1, ← e2, ← e3, ← e4, ← e5]
  simp only [List.filter_cons, hc, if_true, List.map_cons, Option.getD_some, List.filter_nil,
    List.map_nil]
  have k1 : ("## Professional Summary\n\n".toList ++ f.summary.getD [] : Str) =
      h2 ++ "Professional Summary".toList ++ "\n\n".toList ++ f.summary.getD [] := rfl
  have k2 : ("## Skills\n\n".toList ++ f.skills.getD [] : Str) =
      h2 ++ "Skills".toList ++ "\n\n".toList ++ f.skills.getD [] := rfl
  rw [k1, k2]
  congr 1
  split <;> split <;> split <;> split <;> split <;> simp

theorem truthy_eq_getD (a : Option Str) : truthy a = !(a.getD []).isEmpty := by
  cases a with
  | none => rfl
  | some v => rfl

theorem headerLines_contact (fullName : Option Str) (c : ContactInfo)
    (hn : '\n' ∉ displayName fullName)
    (hc : headerFree (join " | ".toList (contactParts c))) :
    headerLines (getContactMarkdown fullName c) = [h2 ++ displayName fullName] := by
  rw [getContactMarkdown_eq]
  by_cases he : (contactParts c).isEmpty = true
  · simp only [he, if_true, List.append_nil]
    exact headerLines_h2_line _ hn
  · have hf : (contactParts c).isEmpty = false := by simpa using he
    simp only [hf, Bool.false_eq_true, if_false]
    rw [← List.append_assoc, headerLines_block _ _ hn, hc]

/-- The header lines of the assembled document, for a form whose free text
holds no header line. -/
theorem headerLines_getCombinedContent (render : Entry → Str) (fullName : Option Str)
    (f : FormValues) (hp : plainText render fullName f) :
    headerLines (getCombinedContent render fullName f) =
      (h2 ++ displayName fullName) :: (sectionTitles f).map fun t => h2 ++ t := by
  obtain ⟨hn, hc, hs, hk, he⟩ := hp
  have hx : ∀ e ∈ f.experience, headerFree (h3 ++ render e) :=
    fun e h => he e (by simp [h])
  have hd : ∀ e ∈ f.education, headerFree (h3 ++ render e) :=
    fun e h => he e (by simp [h])
  have hj : ∀ e ∈ f.projects, headerFree (h3 ++ render e) :=
    fun e h => he e (by simp [h])
  rw [getCombinedContent, sectionBlocks_eq, headerLines_join_blocks, List.flatMap_cons,
    headerLines_contact _ _ hn hc, bodyBlocks]
  simp only [List.flatMap_append]
  rw [headerLines_optBlock _ _ (by decide) hs, headerLines_optBlock _ _ (by decide) hk,
    headerLines_optBlock _ _ (by decide) (headerFree_entriesBody render _ hx),
    headerLines_optBlock _ _ (by decide) (headerFree_entriesBody render _ hd),
    headerLines_optBlock _ _ (by decide) (headerFree_entriesBody render _ hj)]
  simp only [entriesBody_isEmpty, sectionTitles, truthy_eq_getD, List.map_append]
  cases (f.summary.getD []).isEmpty <;> cases (f.skills.getD []).isEmpty <;>
    cases f.experience.isEmpty <;> cases f.education.isEmpty <;>
    cases f.projects.isEmpty <;> rfl

theorem remainder_h2_append (t : Str) : remainder (h2 ++ t) = t := rfl

theorem sectionTitles_plain (f : FormValues) :
    ∀ t ∈ sectionTitles f, isBlank t = false ∧ trim t = t := by
  intro t ht
  simp only [sectionTitles, List.mem_append] at ht
  rcases ht with (((h | h) | h) | h) | h <;>
    · split at h
      all_goals first
        | exact absurd h (List.not_mem_nil _)
        | (rw [List.mem_singleton.mp h]; exact ⟨by decide, by decide⟩)

/-- The pushes of `getContactMarkdown` collect the present fields, in order. -/
theorem contactParts_eq (c : ContactInfo) : contactParts c = presentContactFields c := by
  obtain ⟨e, m, l, t⟩ := c
  have key : ∀ (a : Option Str) (g : Str → Str) (acc : List Str),
      (if truthy a = true then acc ++ [g (a.getD [])] else acc) =
        acc ++ (match a.bind (fun v => if v.isEmpty then none else some (g v)) with
          | some x => [x]
          | none => []) := by
    intro a g acc
    cases a with
    | none => simp [truthy]
    | some v =>
      cases v with
      | nil => simp [truthy]
      | cons c cs => simp [truthy]
  unfold contactParts presentContactFields
  simp only []
  rw [key e (fun v => "📧 ".toList ++ v), key m (fun v => "📱 ".toList ++ v),
    key l (fun v => "💼 [LinkedIn](".toList ++ v ++ ")".toList),
    key t (fun v => "🐦 [Twitter](".toList ++ v ++ ")".toList)]
  generalize e.bind (fun v => if v.isEmpty then none else some ("📧 ".toList ++ v)) = a1
  generalize m.bind (fun v => if v.isEmpty then none else some ("📱 ".toList ++ v)) = a2
  generalize l.bind (fun v =>
    if v.isEmpty then none else some ("💼 [LinkedIn](".toList ++ v ++ ")".toList)) = a3
  generalize t.bind (fun v =>
    if v.isEmpty then none else some ("🐦 [Twitter](".toList ++ v ++ ")".toList)) = a4
  cases a1 <;> cases a2 <;> cases a3 <;> cases a4 <;> rfl

theorem contactParts_ne_nil (c : ContactInfo)
    (h : truthy c.email = true ∨ truthy c.mobile = true ∨ truthy c.linkedin = true ∨
      truthy c.twitter = true) :
    (contactParts c).isEmpty = false := by
  unfold contactParts
  simp only []
  rcases h with h | h | h | h
  · simp only [h, if_true]
    split <;> split <;> split <;> simp
  · simp only [h, if_true]
    split <;> split <;> split <;> simp
  · simp only [h, if_true]
    split <;> split <;> split <;> simp
  · simp only [h, if_true]
    split <;> split <;> split <;> simp

/-! ## The markdown assembler: claims -/

/-- C5: for a contactInfo with at least one present field, getContactMarkdown
returns the level-2 header with the display name (the full name of the user,
or `Your Name` when the user has none or an empty one), a blank line, and the
contact line: the join with ` | ` of exactly the present fields in the order
email, mobile, linkedin, twitter, each after its glyph, an absent field giving
neither text nor glyph. On the example of the spec (an email and a LinkedIn
address) the line holds both values and neither the mobile nor the twitter
glyph. -/
theorem getContactMarkdown_present (fullName : Option Str) (c : ContactInfo)
    (h : truthy c.email = true ∨ truthy c.mobile = true ∨ truthy c.linkedin = true ∨
      truthy c.twitter = true) :
    getContactMarkdown fullName c =
        "## ".toList ++
          (match fullName with
            | some (ch :: rest) => ch :: rest
            | _ => "Your Name".toList) ++
          "\n\n".toList ++ join " | ".toList (presentContactFields c) ∧
    getContactMarkdown (some "Ada Lovelace".toList) sampleContact =
        "## Ada Lovelace\n\n📧 a@b.com | 💼 [LinkedIn](https://x.com/a)".toList ∧
    getContactMarkdown (some []) sampleContact =
        "## Your Name\n\n📧 a@b.com | 💼 [LinkedIn](https://x.com/a)".toList ∧
    '📱' ∉ join " | ".toList (contactParts sampleContact) ∧
    '🐦' ∉ join " | ".toList (contactParts sampleContact) := by
  refine ⟨?_, by decide, by decide, by decide, by decide⟩
  have hd : displayName fullName =
      (match fullName with
        | some (ch :: rest) => ch :: rest
        | _ => "Your Name".toList) := by
    cases fullName with
    | none => rfl
    | some name =>
      cases name with
      | nil => rfl
      | cons ch rest => rfl
  rw [getContactMarkdown_eq, contactParts_ne_nil c h, ← contactParts_eq, hd]
  simp [h2]

/-- Witness of C5: the contact block of the example of the spec, for a user
with a full name, and the same block for a mobile number alone. -/
theorem getContactMarkdown_present_witness :
    getContactMarkdown (some "Ada Lovelace".toList) sampleContact =
        "## Ada Lovelace\n\n📧 a@b.com | 💼 [LinkedIn](https://x.com/a)".toList ∧
    getContactMarkdown none
        { email := some [], mobile := some "555 0100".toList, linkedin := none,
          twitter := none } =
      "## Your Name\n\n📱 555 0100".toList :=
  ⟨((getContactMarkdown_present (some "Ada Lovelace".toList) sampleContact
        (by decide)).1).trans (by decide),
    ((getContactMarkdown_present none
        { email := some [], mobile := some "555 0100".toList, linkedin := none,
          twitter := none } (by decide)).1).trans (by decide)⟩

/-- C3, as the code has it: for a form whose free text holds no header line
(a one-line display name; no line of the contact line, summary, skills or
sub-blocks starting with `## `), the output of getCombinedContent contains the
header line of the contact block always, then exactly one header line per
non-empty section among summary, skills, experience, education and projects,
in this fixed order; the output is the contact block and the blocks of the
non-empty sections joined by one blank line. -/
theorem getCombinedContent_headers (render : Entry → Str) (fullName : Option Str)
    (f : FormValues) (hp : plainText render fullName f) :
    headerLines (getCombinedContent render fullName f) =
        (h2 ++ displayName fullName) :: (sectionTitles f).map (fun t => h2 ++ t) ∧
    getCombinedContent render fullName f =
        join "\n\n".toList (getContactMarkdown fullName f.contactInfo :: bodyBlocks render f) := by
  refine ⟨headerLines_getCombinedContent render fullName f hp, ?_⟩
  rw [getCombinedContent, sectionBlocks_eq]

/-- Witness of C3 on a filled form: four header lines, in the fixed order. -/
theorem getCombinedContent_headers_witness :
    plainText sampleRender (some "Ada Lovelace".toList) sampleForm ∧
    headerLines (getCombinedContent sampleRender (some "Ada Lovelace".toList) sampleForm) =
      ["## Ada Lovelace".toList, "## Professional Summary".toList, "## Skills".toList,
        "## Work Experience".toList, "## Projects".toList] :=
  ⟨by decide,
    (getCombinedContent_headers sampleRender (some "Ada Lovelace".toList) sampleForm
      (by decide)).1.trans (by decide)⟩

/-- Counterexample of C3 as stated: a form with a summary only has one
non-empty section and an output with two header lines, the first for the empty
contact section; and a form whose summary is the line `## Extra` has two
non-empty sections and an output with three header lines. -/
theorem getCombinedContent_headers_not_per_section :
    (nonEmptyTitles none summaryOnlyForm = ["Professional Summary".toList] ∧
      headerLines (getCombinedContent sampleRender none summaryOnlyForm) =
        ["## Your Name".toList, "## Professional Summary".toList]) ∧
    (nonEmptyTitles none headerInSummaryForm =
        ["Your Name".toList, "Professional Summary".toList] ∧
      headerLines (getCombinedContent sampleRender none headerInSummaryForm) =
        ["## Your Name".toList, "## Professional Summary".toList, "## Extra".toList]) := by
  decide

/-- C4, as the code has it: a summary, a skills text or an entry list that is
empty or falsy gives no block at all, and every block emitted for one of them
is its header line, a blank line and a non-empty body; the contact header is
emitted always, followed by a blank line and the contact line exactly when a
contact field is present. -/
theorem getCombinedContent_blocks (render : Entry → Str) (fullName : Option Str)
    (f : FormValues) :
    getCombinedContent render fullName f =
        join "\n\n".toList (getContactMarkdown fullName f.contactInfo :: bodyBlocks render f) ∧
    (∀ b ∈ bodyBlocks render f, ∃ t body : Str,
        b = h2 ++ t ++ "\n\n".toList ++ body ∧ body ≠ [] ∧ '\n' ∉ t) ∧
    bodyBlocks render f =
        (if truthy f.summary then
          ["## Professional Summary\n\n".toList ++ f.summary.getD []] else []) ++
        (if truthy f.skills then ["## Skills\n\n".toList ++ f.skills.getD []] else []) ++
        (if f.experience.isEmpty then []
          else ["## Work Experience\n\n".toList ++ entriesBody render f.experience]) ++
        (if f.education.isEmpty then []
          else ["## Education\n\n".toList ++ entriesBody render f.education]) ++
        (if f.projects.isEmpty then []
          else ["## Projects\n\n".toList ++ entriesBody render f.projects]) ∧
    getContactMarkdown fullName f.contactInfo =
        h2 ++ displayName fullName ++
          (if (contactParts f.contactInfo).isEmpty then []
           else "\n\n".toList ++ join " | ".toList (contactParts f.contactInfo)) := by
  refine ⟨?_, ?_, ?_, getContactMarkdown_eq _ _⟩
  · rw [getCombinedContent, sectionBlocks_eq]
  · have key : ∀ (t body b : Str), '\n' ∉ t → b ∈ optBlock t body →
        ∃ t body : Str, b = h2 ++ t ++ "\n\n".toList ++ body ∧ body ≠ [] ∧ '\n' ∉ t := by
      intro t body b ht hb
      unfold optBlock at hb
      cases body with
      | nil => simp at hb
      | cons c cs =>
        refine ⟨t, c :: cs, ?_, by simp, ht⟩
        simpa using hb
    intro b hb
    simp only [bodyBlocks, List.mem_append] at hb
    rcases hb with (((h | h) | h) | h) | h
    · exact key _ _ b (by decide) h
    · exact key _ _ b (by decide) h
    · exact key _ _ b (by decide) h
    · exact key _ _ b (by decide) h
    · exact key _ _ b (by decide) h
  · simp only [bodyBlocks, optBlock, entriesBody_isEmpty, truthy_eq_getD]
    cases (f.summary.getD []).isEmpty <;> cases (f.skills.getD []).isEmpty <;>
      cases f.experience.isEmpty <;> cases f.education.isEmpty <;>
      cases f.projects.isEmpty <;> rfl

/-- Counterexample of C4 as stated: the blank form has no contact field, and
its contact section is not omitted: the output is the header line
`## Your Name` alone, followed by no content. -/
theorem getCombinedContent_empty_contact_header :
    (contactParts blankForm.contactInfo).isEmpty = true ∧
    getCombinedContent sampleRender none blankForm = "## Your Name".toList := by
  decide

/-- C1, as the code has it: for a form whose free text holds no header line
and a display name that is one line and not blank, parsing the output of
getCombinedContent gives first the contact section, always, titled with the
trimmed display name (or `Your Name`), then exactly one section per non-empty
category among summary, skills, experience, education and projects, in this
order, titled `Professional Summary`, `Skills`, `Work Experience`, `Education`
and `Projects`. -/
theorem parse_getCombinedContent_titles (render : Entry → Str) (fullName : Option Str)
    (f : FormValues) (hp : plainText render fullName f)
    (hn : isBlank (displayName fullName) = false) :
    (parsedContent (getCombinedContent render fullName f)).map (fun s => s.title) =
      trim (displayName fullName) :: sectionTitles f := by
  have hl := headerLines_getCombinedContent render fullName f hp
  have hplain := sectionTitles_plain f
  rw [titles_of_headerLines, hl]
  · simp only [List.map_cons, List.map_map, remainder_h2_append]
    congr 1
    have : ∀ ts : List Str, (∀ t ∈ ts, trim t = t) →
        ts.map ((fun l => trim (remainder l)) ∘ fun t => h2 ++ t) = ts := by
      intro ts hts
      induction ts with
      | nil => rfl
      | cons t ts ih =>
        simp only [List.map_cons, Function.comp, remainder_h2_append]
        rw [hts t (by simp)]
        congr 1
        exact ih (fun x hx => hts x (List.mem_cons_of_mem _ hx))
    exact this _ (fun t ht => (hplain t ht).2)
  · intro l hl2
    rw [hl] at hl2
    rcases List.mem_cons.mp hl2 with h | h
    · rw [h, remainder_h2_append]
      exact hn
    · obtain ⟨t, ht, e⟩ := List.mem_map.mp h
      rw [← e, remainder_h2_append]
      exact (hplain t ht).1

/-- Witness of C1 on a filled form. -/
theorem parse_getCombinedContent_titles_witness :
    (parsedContent
        (getCombinedContent sampleRender (some "Ada Lovelace".toList) sampleForm)).map
      (fun s => s.title) =
      ["Ada Lovelace".toList, "Professional Summary".toList, "Skills".toList,
        "Work Experience".toList, "Projects".toList] :=
  (parse_getCombinedContent_titles sampleRender (some "Ada Lovelace".toList) sampleForm
    (by decide) (by decide)).trans (by decide)

/-- Counterexample of C1 as stated: the blank form has no non-empty category,
and parsing its output gives one section, titled `Your Name`; a summary that
is the line `## Extra` gives a third section for two non-empty categories; and
the display name ` Ada ` gives the title `Ada`. -/
theorem parse_blank_form_has_section :
    (nonEmptyTitles none blankForm = [] ∧
      parsedContent (getCombinedContent sampleRender none blankForm) =
        [{ title := "Your Name".toList, content := [] }]) ∧
    (nonEmptyTitles none headerInSummaryForm =
        ["Your Name".toList, "Professional Summary".toList] ∧
      (parsedContent (getCombinedContent sampleRender none headerInSummaryForm)).map
          (fun s => s.title) =
        ["Your Name".toList, "Professional Summary".toList, "Extra".toList]) ∧
    (displayName paddedName = " Ada ".toList ∧
      (parsedContent (getCombinedContent sampleRender paddedName sampleForm)).map
          (fun s => s.title) =
        ["Ada".toList, "Professional Summary".toList, "Skills".toList,
          "Work Experience".toList, "Projects".toList]) := by
  decide

/-- C2 on the code: the body of two sub-blocks joined by one blank line, under
its header, is parsed to a content without the blank line, which is not the
trimmed body. -/
theorem parsedContent_loses_entry_separation :
    parsedContent
        "## Work Experience\n\n### Engineer @ Acme\n\n### Analyst @ Bolt".toList =
      [{ title := "Work Experience".toList,
         content := "### Engineer @ Acme\n### Analyst @ Bolt".toList }] ∧
    "### Engineer @ Acme\n### Analyst @ Bolt".toList ≠
      trim "### Engineer @ Acme\n\n### Analyst @ Bolt".toList := by
  decide

/-! ## The generation client: claims -/

theorem responseText_eq (text : Option Str) : responseText text = (text.map trim).getD [] := by
  cases text with
  | none => rfl
  | some t =>
    cases h : trim t with
    | nil => simp [responseText, truthy, h]
    | cons c cs => simp [responseText, truthy, h]

theorem runLLMLoop_calls (ai : Provider) (prompt model : Str) (n calls waits : Nat) :
    (runLLMLoop ai prompt model n calls waits).calls ≤ calls + n := by
  induction n generalizing calls waits with
  | zero => simp [runLLMLoop]
  | succ n ih =>
    rw [runLLMLoop]
    cases ai model prompt calls with
    | ok text => simp
    | fail err =>
      by_cases h : err.status = some 503
      · simp only [h, if_true]
        have := ih (calls + 1) (waits + 1)
        omega
      · simp only [h, if_false]
        omega

theorem runLLMLoop_unavailable (ai : Provider) (prompt model : Str) (n calls waits : Nat)
    (h : ∀ i, i < n → ∃ err, ai model prompt (calls + i) = .fail err ∧ err.status = some 503) :
    runLLMLoop ai prompt model n calls waits =
      { outcome := .error (.error "AI model unavailable after retries.".toList),
        calls := calls + n, waits := waits + n } := by
  induction n generalizing calls waits with
  | zero => simp [runLLMLoop]
  | succ n ih =>
    obtain ⟨err, he, hs⟩ := h 0 (by omega)
    rw [Nat.add_zero] at he
    rw [runLLMLoop, he]
    simp only [hs, if_true]
    rw [ih]
    · simp only [Run.mk.injEq, true_and]
      omega
    · intro i hi
      have := h (i + 1) (by omega)
      rwa [show calls + (i + 1) = calls + 1 + i by omega] at this

theorem runLLMLoop_answer (ai : Provider) (prompt model : Str) (text : Option Str)
    (k n calls waits : Nat)
    (hfail : ∀ i, i < k →
      ∃ err, ai model prompt (calls + i) = .fail err ∧ err.status = some 503)
    (hok : ai model prompt (calls + k) = .ok text) (hk : k < n) :
    runLLMLoop ai prompt model n calls waits =
      { outcome := .ok (responseText text), calls := calls + k + 1, waits := waits + k } := by
  induction k generalizing n calls waits with
  | zero =>
    obtain ⟨m, rfl⟩ : ∃ m, n = m + 1 := ⟨n - 1, by omega⟩
    rw [Nat.add_zero] at hok
    rw [runLLMLoop, hok]
    rfl
  | succ k ih =>
    obtain ⟨m, rfl⟩ : ∃ m, n = m + 1 := ⟨n - 1, by omega⟩
    obtain ⟨err, he, hs⟩ := hfail 0 (by omega)
    rw [Nat.add_zero] at he
    rw [runLLMLoop, he]
    simp only [hs, if_true]
    rw [ih m (calls + 1) (waits + 1) _ _ (by omega)]
    · simp only [Run.mk.injEq, true_and]
      omega
    · intro i hi
      have := hfail (i + 1) (by omega)
      rwa [show calls + (i + 1) = calls + 1 + i by omega] at this
    · rwa [show calls + (k + 1) = calls + 1 + k by omega] at hok

/-- C9: for every prompt and every k in 0, 1, 2, if the provider fails with
status 503 on its first k calls and answers on call k+1, runLLM returns the
trimmed text of that answer (the empty string when the answer has no text)
after k+1 provider calls made one after another and exactly k waits, one
before each retry. -/
theorem runLLM_retries (ai : Provider) (prompt model : Str) (k : Nat) (text : Option Str)
    (hk : k ≤ 2)
    (hfail : ∀ i, i < k → ∃ err, ai model prompt i = .fail err ∧ err.status = some 503)
    (hok : ai model prompt k = .ok text) :
    runLLM ai prompt model =
      { outcome := .ok ((text.map trim).getD []), calls := k + 1, waits := k } := by
  rw [runLLM, runLLMLoop_answer ai prompt model text k 3 0 0
    (by simpa using hfail) (by simpa using hok) (by omega), responseText_eq]
  simp

/-- Witness of C9: two failures with status 503, then an answer: the trimmed
answer after three calls and two retries. -/
theorem runLLM_retries_witness :
    runLLM flakyProvider "Improve this.".toList "gemini-2.5-flash".toList =
      { outcome := .ok "Led a team of five.".toList, calls := 3, waits := 2 } :=
  (runLLM_retries flakyProvider "Improve this.".toList "gemini-2.5-flash".toList 2
    (some "  Led a team of five.\n".toList) (by decide)
    (fun i hi => ⟨{ status := some 503, message := "The model is overloaded.".toList },
      by simp [flakyProvider, hi], rfl⟩)
    rfl).trans rfl

/-- C10: the retry is bounded: for every provider runLLM makes at most three
provider calls (and so does improveWithAI); when every call fails with status
503 it makes exactly three calls and fails with
`AI model unavailable after retries.`, which improveWithAI, for a signed-in
user with a profile, surfaces as `Failed to improve resume content`. -/
theorem runLLM_bounded (env : Env) (prompt model current type : Str) :
    (runLLM env.ai prompt model).calls ≤ 3 ∧
    (improveWithAI env current type).calls ≤ 3 ∧
    ((∀ i, i < 3 → ∃ err, env.ai model prompt i = .fail err ∧ err.status = some 503) →
      runLLM env.ai prompt model =
        { outcome := .error (.error "AI model unavailable after retries.".toList),
          calls := 3, waits := 3 }) ∧
    (∀ user : User, truthy env.userId = true →
      env.findUser (env.userId.getD []) = some user →
      (∀ i, i < 3 →
        ∃ err, env.ai "gemini-2.5-flash".toList (improvePrompt user current type) i = .fail err ∧
          err.status = some 503) →
      improveWithAI env current type =
        { outcome := .error (.error "Failed to improve resume content".toList),
          calls := 3, waits := 3 }) := by
  have hb : ∀ p m, (runLLM env.ai p m).calls ≤ 3 := by
    intro p m
    have := runLLMLoop_calls env.ai p m 3 0 0
    simpa [runLLM] using this
  have hdown : ∀ p m,
      (∀ i, i < 3 → ∃ err, env.ai m p i = .fail err ∧ err.status = some 503) →
      runLLM env.ai p m =
        { outcome := .error (.error "AI model unavailable after retries.".toList),
          calls := 3, waits := 3 } := by
    intro p m h
    rw [runLLM, runLLMLoop_unavailable env.ai p m 3 0 0 (by simpa using h)]
  refine ⟨hb _ _, ?_, hdown _ _, ?_⟩
  · unfold improveWithAI
    by_cases hu : truthy env.userId = true
    · simp only [hu, Bool.not_true, Bool.false_eq_true, if_false]
      cases env.findUser (env.userId.getD []) with
      | none => simp
      | some user =>
        have := hb (improvePrompt user current type) "gemini-2.5-flash".toList
        simp only []
        split <;> exact this
    · simp [hu]
  · intro user hu hf hall
    unfold improveWithAI
    simp only [hu, Bool.not_true, Bool.false_eq_true, if_false, hf]
    rw [hdown _ _ hall]

/-- Witness of C10: against a provider that is always unavailable, three calls
and the generic error. -/
theorem runLLM_bounded_witness :
    improveWithAI downEnv "Built things.".toList "experience".toList =
      { outcome := .error (.error "Failed to improve resume content".toList),
        calls := 3, waits := 3 } :=
  (runLLM_bounded downEnv [] [] "Built things.".toList "experience".toList).2.2.2
    { id := "u1".toList, industry := some "tech".toList } (by decide) rfl
    (fun _ _ => ⟨{ status := some 503, message := "The model is overloaded.".toList }, rfl, rfl⟩)

/-! ## Server actions: lemmas -/

theorem withUser_unauthorized {α : Type} (s : Server) (body : Profile → Act α)
    (h : truthy s.userId = false) :
    withUser s body = { outcome := .error (jsError "Unauthorized"), calls := 0, db := [] } := by
  simp [withUser, h]

theorem withUser_not_found {α : Type} (s : Server) (body : Profile → Act α)
    (h : truthy s.userId = true) (hf : s.db.userFindUnique 0 (s.userId.getD []) = .ok none) :
    withUser s body =
      { outcome := .error (jsError "User not found"), calls := 0, db := lookupLog s } := by
  simp [withUser, h, hf]

theorem withUser_found {α : Type} (s : Server) (body : Profile → Act α) (user : Profile)
    (h : truthy s.userId = true)
    (hf : s.db.userFindUnique 0 (s.userId.getD []) = .ok (some user)) :
    withUser s body = body user := by
  simp [withUser, h, hf]

theorem runLLMOnce_fail (ai : Provider) (prompt : Str) (calls : Nat) (err : ProviderError)
    (h : ai geminiModel prompt calls = .fail err) :
    runLLMOnce ai prompt calls = .error (.provider err) := by
  have h1 : ai "gemini-2.5-flash".toList prompt calls = .fail err := h
  unfold runLLMOnce
  rw [h1]

theorem runLLMOnce_ok (ai : Provider) (prompt : Str) (calls : Nat) (text : Option Str)
    (h : ai geminiModel prompt calls = .ok text) :
    runLLMOnce ai prompt calls = .ok (responseText text) := by
  have h1 : ai "gemini-2.5-flash".toList prompt calls = .ok text := h
  unfold runLLMOnce
  rw [h1]

/-- When the provider fails with a status other than 429, `generateCoverLetter`
throws its generic error after one call and no write. -/
theorem generateCoverLetter_provider_failure (s : Server) (data : JobData) (user : Profile)
    (err : ProviderError) (hu : truthy s.userId = true)
    (hp : s.db.userFindUnique 0 (s.userId.getD []) = .ok (some user))
    (hf : s.ai geminiModel (coverLetterPrompt user data) 0 = .fail err)
    (hs : err.status ≠ some 429) :
    generateCoverLetter s data =
      { outcome := .error (jsError "Failed to generate cover letter"), calls := 1,
        db := lookupLog s } := by
  have hs2 : (Thrown.provider err).status ≠ some 429 := hs
  rw [generateCoverLetter, withUser_found s _ user hu hp]
  simp only [tryCoverLetter, runLLMOnce_fail _ _ _ _ hf, if_neg hs2]

/-! ## The cover letter: claims -/

/-- C12: for an authenticated user with a profile, when the provider fails
with status 429 and the database accepts the record, generateCoverLetter
calls the provider exactly once, creates exactly one cover letter, with status
`failed`, a diagnostic content and the jobTitle, companyName, jobDescription
of the request and the id of the user, and returns the stored record instead
of throwing. -/
theorem generateCoverLetter_quota (s : Server) (data : JobData) (user : Profile)
    (err : ProviderError) (stored : CoverLetter)
    (hu : truthy s.userId = true)
    (hp : s.db.userFindUnique 0 (s.userId.getD []) = .ok (some user))
    (hf : s.ai geminiModel (coverLetterPrompt user data) 0 = .fail err)
    (hs : err.status = some 429)
    (hc : s.db.coverLetterCreate 1 (failedLetter user data (s.describe (.provider err))) =
      .ok stored) :
    generateCoverLetter s data =
      { outcome := .ok stored, calls := 1,
        db := lookupLog s ++
          [.coverLetterCreate (failedLetter user data (s.describe (.provider err)))] } ∧
    failedLetter user data (s.describe (.provider err)) =
      { content :=
          "AI generation failed: quota exceeded. Please check your Google Cloud billing and quota settings and try again later.\n\nProvider details:\n".toList ++
            s.describe (.provider err),
        jobDescription := data.jobDescription, companyName := data.companyName,
        jobTitle := data.jobTitle, status := "failed".toList, userId := user.id } := by
  have hs2 : (Thrown.provider err).status = some 429 := hs
  refine ⟨?_, rfl⟩
  rw [generateCoverLetter, withUser_found s _ user hu hp]
  have hlen : (lookupLog s).length = 1 := rfl
  simp only [tryCoverLetter, runLLMOnce_fail _ _ _ _ hf, if_pos hs2, hlen, hc]

/-- Witness of C12: the sample user against a provider whose quota is
exceeded. -/
theorem generateCoverLetter_quota_witness :
    (generateCoverLetter (sampleServer quotaProvider) sampleJob).outcome =
      .ok { id := "c1".toList,
            data := failedLetter sampleProfile sampleJob "ApiError: Quota exceeded.".toList } :=
  congrArg Act.outcome
    (generateCoverLetter_quota (sampleServer quotaProvider) sampleJob sampleProfile
      { status := some 429, message := "Quota exceeded.".toList }
      { id := "c1".toList,
        data := failedLetter sampleProfile sampleJob "ApiError: Quota exceeded.".toList }
      rfl rfl rfl rfl rfl).1

/-- C13: for an authenticated user with a profile, when the generation fails
with a status other than 429, or the creation of the record fails with a
status other than 429, generateCoverLetter throws the generic error
`Failed to generate cover letter`, returns no record, and attempts no write
of a cover letter with status `failed`. -/
theorem generateCoverLetter_other_failure (s : Server) (data : JobData) (user : Profile)
    (hu : truthy s.userId = true)
    (hp : s.db.userFindUnique 0 (s.userId.getD []) = .ok (some user))
    (h : (∃ err, s.ai geminiModel (coverLetterPrompt user data) 0 = .fail err ∧
            err.status ≠ some 429) ∨
         (∃ text e, s.ai geminiModel (coverLetterPrompt user data) 0 = .ok text ∧
            s.db.coverLetterCreate 1 (completedLetter user data (responseText text)) = .error e ∧
            e.status ≠ some 429)) :
    (generateCoverLetter s data).outcome = .error (jsError "Failed to generate cover letter") ∧
    ∀ d, DbOp.coverLetterCreate d ∈ (generateCoverLetter s data).db →
      d.status ≠ "failed".toList := by
  rcases h with ⟨err, hf, hs⟩ | ⟨text, e, hok, hc, hs⟩
  · rw [generateCoverLetter_provider_failure s data user err hu hp hf hs]
    refine ⟨rfl, ?_⟩
    intro d hd
    simp [lookupLog] at hd
  · rw [generateCoverLetter, withUser_found s _ user hu hp]
    simp only [tryCoverLetter, runLLMOnce_ok _ _ _ _ hok, hc, if_neg hs]
    refine ⟨trivial, ?_⟩
    intro d hd
    simp only [lookupLog, List.mem_append, List.mem_singleton, List.mem_cons,
      List.not_mem_nil, or_false] at hd
    rcases hd with hd | hd
    · exact DbOp.noConfusion hd
    · have e1 : d = completedLetter user data (responseText text) := by
        injection hd
      rw [e1]
      show "completed".toList ≠ "failed".toList
      decide

/-- Witness of C13: the provider answers with status 503. -/
theorem generateCoverLetter_other_failure_witness :
    (generateCoverLetter (sampleServer flakyOnceProvider) sampleJob).outcome =
      .error (jsError "Failed to generate cover letter") :=
  (generateCoverLetter_other_failure (sampleServer flakyOnceProvider) sampleJob sampleProfile
    rfl rfl
    (Or.inl ⟨{ status := some 503, message := "The model is overloaded.".toList }, rfl,
      by decide⟩)).1

/-! ## Fence stripping -/

theorem stripFences_fence_json (t : Str) :
    stripFences ("```json\n".toList ++ t) = stripFences t := by
  simp [stripFences, stripFencesFrom, fenceLength]

theorem stripFences_fence_plain (t : Str) :
    stripFences ("```\n".toList ++ t) = stripFences t := by
  simp [stripFences, stripFencesFrom, fenceLength]

theorem fenceLength_eq_zero (t : Str) (h : ¬ "```".toList <+: t) : fenceLength t = 0 := by
  have h1 : "```".toList.isPrefixOf t = false := by
    cases hb : "```".toList.isPrefixOf t with
    | false => rfl
    | true => exact absurd (List.isPrefixOf_iff_prefix.mp hb) h
  unfold fenceLength
  rw [if_neg (by rw [h1]; exact Bool.false_ne_true)]

theorem not_fence_at_end (j : Str) (c : Char) (h : ¬ "```".toList <:+: c :: j) :
    ¬ "```".toList <+: c :: j ++ "\n```".toList := by
  intro hp
  apply h
  match j, hp with
  | [], hp =>
    have := List.isPrefixOf_iff_prefix.mpr hp
    simp [List.isPrefixOf] at this
  | [d], hp =>
    have := List.isPrefixOf_iff_prefix.mpr hp
    simp [List.isPrefixOf] at this
  | d :: e :: rest, hp =>
    have := List.isPrefixOf_iff_prefix.mpr hp
    simp only [String.toList, List.cons_append, List.isPrefixOf, Bool.and_eq_true,
      beq_iff_eq, Bool.and_true] at this
    obtain ⟨h1, h2, h3⟩ := this
    subst h1 h2 h3
    exact ⟨[], rest, rfl⟩

/-- A text without fence marker, before the closing fence, is kept as it is
and the closing marker alone is removed. -/
theorem stripFences_body (j : Str) (h : ¬ "```".toList <:+: j) :
    stripFences (j ++ "\n```".toList) = j ++ "\n".toList := by
  induction j with
  | nil => rfl
  | cons c cs ih =>
    have hcs : ¬ "```".toList <:+: cs := by
      intro hi
      apply h
      obtain ⟨a, b, e⟩ := hi
      exact ⟨c :: a, b, by simp [← e]⟩
    have h0 := fenceLength_eq_zero _ (not_fence_at_end cs c h)
    have e : stripFences (c :: cs ++ "\n```".toList) =
        c :: stripFences (cs ++ "\n```".toList) := by
      simp only [stripFences, List.cons_append] at h0 ⊢
      rw [stripFencesFrom, if_pos h0]
    rw [e, ih hcs]
    rfl

theorem trim_append_newline (t : Str) : trim (t ++ "\n".toList) = trim t := by
  cases hb : isBlank t with
  | true =>
    have h1 : isBlank (t ++ "\n".toList) = true := by
      simp only [isBlank, List.all_append, Bool.and_eq_true] at hb ⊢
      exact ⟨hb, by decide⟩
    rw [(trim_eq_nil_iff _).mpr h1, (trim_eq_nil_iff _).mpr hb]
  | false =>
    have hs : isBlank (trimStart t) = false := by rw [isBlank_trimStart]; exact hb
    rw [trim, trim, trimStart, dropWhile_append_of_not_blank _ _ hb]
    have hrev : isBlank (trimStart t).reverse = false := by rw [isBlank_reverse]; exact hs
    have e : trimEnd (trimStart t ++ "\n".toList) = trimEnd (trimStart t) := by
      unfold trimEnd
      rw [List.reverse_append]
      have : ("\n".toList).reverse = ['\n'] := rfl
      rw [this, List.singleton_append, List.dropWhile_cons]
      simp [isWhiteSpace]
    exact e

theorem trim_of_not_blank_ends (t : Str) (c d : Char) (mid : Str)
    (ht : t = c :: mid ++ [d]) (hc : isWhiteSpace c = false) (hd : isWhiteSpace d = false) :
    trim t = t := by
  subst ht
  have e1 : trimStart (c :: mid ++ [d]) = c :: mid ++ [d] := by
    simp [trimStart, List.dropWhile_cons, hc]
  rw [trim, e1, trimEnd]
  have e2 : (c :: mid ++ [d]).reverse = d :: (c :: mid).reverse := by simp
  rw [e2, List.dropWhile_cons]
  simp [hd]

/-- The cleaned text of a fenced answer: the text between the fences, trimmed,
when it holds no fence marker. -/
theorem cleanedText_fenced (j : Str) (opening : Str)
    (ho : opening = "```json\n".toList ∨ opening = "```\n".toList)
    (h : ¬ "```".toList <:+: j) :
    cleanedText (responseText (some (opening ++ j ++ "\n```".toList))) = trim j := by
  have hne : ∃ mid, opening ++ j ++ "\n```".toList = '`' :: mid ++ ['`'] := by
    rcases ho with ho | ho <;> subst ho
    · exact ⟨"``json\n".toList ++ j ++ "\n``".toList, by simp⟩
    · exact ⟨"``\n".toList ++ j ++ "\n``".toList, by simp⟩
  obtain ⟨mid, hm⟩ := hne
  have ht : trim (opening ++ j ++ "\n```".toList) = opening ++ j ++ "\n```".toList :=
    trim_of_not_blank_ends _ '`' '`' mid hm (by decide) (by decide)
  have hr : responseText (some (opening ++ j ++ "\n```".toList)) =
      opening ++ j ++ "\n```".toList := by
    rw [responseText_eq]
    simp only [Option.map_some', Option.getD_some]
    exact ht
  rw [hr, cleanedText, List.append_assoc]
  rcases ho with ho | ho <;> subst ho
  · rw [stripFences_fence_json, stripFences_body j h, trim_append_newline]
  · rw [stripFences_fence_plain, stripFences_body j h, trim_append_newline]

/-! ## Generation with JSON answers: lemmas -/

theorem generateAIInsights_provider_failure (s : Server) (industry : Option Str)
    (err : ProviderError) (hf : s.ai geminiModel (insightsPrompt industry) 0 = .fail err) :
    generateAIInsights s industry =
      { outcome := .error (jsError "Failed to generate AI insights"), calls := 1, db := [] } := by
  simp only [generateAIInsights, runLLMOnce_fail _ _ _ _ hf]

theorem generateAIInsights_answer (s : Server) (industry : Option Str) (text : Option Str)
    (hok : s.ai geminiModel (insightsPrompt industry) 0 = .ok text) :
    generateAIInsights s industry =
      match s.parse (cleanedText (responseText text)) with
      | none =>
        { outcome := .error (jsError "Failed to generate AI insights"), calls := 1, db := [] }
      | some value => { outcome := .ok value, calls := 1, db := [] } := by
  simp only [generateAIInsights, runLLMOnce_ok _ _ _ _ hok]

theorem generateQuiz_provider_failure (s : Server) (user : Profile) (err : ProviderError)
    (hu : truthy s.userId = true)
    (hp : s.db.userFindUnique 0 (s.userId.getD []) = .ok (some user))
    (hf : s.ai geminiModel (quizPrompt user) 0 = .fail err) :
    generateQuiz s =
      { outcome := .error (jsError "Failed to generate quiz questions"), calls := 1,
        db := lookupLog s } := by
  rw [generateQuiz, withUser_found s _ user hu hp]
  simp only [runLLMOnce_fail _ _ _ _ hf]

theorem generateQuiz_answer (s : Server) (user : Profile) (text : Option Str)
    (hu : truthy s.userId = true)
    (hp : s.db.userFindUnique 0 (s.userId.getD []) = .ok (some user))
    (hok : s.ai geminiModel (quizPrompt user) 0 = .ok text) :
    generateQuiz s =
      match (s.parse (cleanedText (responseText text))).bind questionsOf with
      | none =>
        { outcome := .error (jsError "Failed to generate quiz questions"), calls := 1,
          db := lookupLog s }
      | some questions => { outcome := .ok questions, calls := 1, db := lookupLog s } := by
  rw [generateQuiz, withUser_found s _ user hu hp]
  simp only [runLLMOnce_ok _ _ _ _ hok]
  cases s.parse (cleanedText (responseText text)) with
  | none => rfl
  | some quiz => rfl

/-! ## Generation with JSON answers: claims -/

/-- C11, as the code has it: when the provider fails with status 503 on the
first call for the prompt of the action, improveWithAI (whose runLLM retries)
makes a second call and, when that call answers, returns the trimmed answer
and does not throw; generateCoverLetter, generateQuiz and generateAIInsights
make one provider call without retry and throw their generic error, whatever
a second call would answer. -/
theorem transient_failure_by_action :
    (∀ (env : Env) (current type : Str) (u : User) (text : Option Str) (err : ProviderError),
      truthy env.userId = true → env.findUser (env.userId.getD []) = some u →
      env.ai "gemini-2.5-flash".toList (improvePrompt u current type) 0 = .fail err →
      err.status = some 503 →
      env.ai "gemini-2.5-flash".toList (improvePrompt u current type) 1 = .ok text →
      improveWithAI env current type =
        { outcome := .ok ((text.map trim).getD []), calls := 2, waits := 1 }) ∧
    (∀ (s : Server) (data : JobData) (user : Profile) (err : ProviderError),
      truthy s.userId = true →
      s.db.userFindUnique 0 (s.userId.getD []) = .ok (some user) →
      s.ai "gemini-2.5-flash".toList (coverLetterPrompt user data) 0 = .fail err →
      err.status = some 503 →
      generateCoverLetter s data =
        { outcome := .error (.error "Failed to generate cover letter".toList), calls := 1,
          db := [.userFindUnique (s.userId.getD [])] }) ∧
    (∀ (s : Server) (user : Profile) (err : ProviderError),
      truthy s.userId = true →
      s.db.userFindUnique 0 (s.userId.getD []) = .ok (some user) →
      s.ai "gemini-2.5-flash".toList (quizPrompt user) 0 = .fail err →
      err.status = some 503 →
      generateQuiz s =
        { outcome := .error (.error "Failed to generate quiz questions".toList), calls := 1,
          db := [.userFindUnique (s.userId.getD [])] }) ∧
    (∀ (s : Server) (industry : Option Str) (err : ProviderError),
      s.ai "gemini-2.5-flash".toList (insightsPrompt industry) 0 = .fail err →
      err.status = some 503 →
      generateAIInsights s industry =
        { outcome := .error (.error "Failed to generate AI insights".toList), calls := 1,
          db := [] }) := by
  refine ⟨?_, ?_, ?_, ?_⟩
  · intro env current type u text err he hf h0 hs h1
    have hr : runLLM env.ai (improvePrompt u current type) "gemini-2.5-flash".toList =
        { outcome := .ok (responseText text), calls := 2, waits := 1 } := by
      rw [runLLM, runLLMLoop_answer env.ai _ _ text 1 3 0 0 _ _ (by omega)]
      · intro i hi
        have hi0 : i = 0 := by omega
        subst hi0
        exact ⟨err, h0, hs⟩
      · exact h1
    unfold improveWithAI
    simp only [he, Bool.not_true, Bool.false_eq_true, if_false, hf, hr, responseText_eq]
  · intro s data user err hu hp hfail hs
    exact generateCoverLetter_provider_failure s data user err hu hp hfail
      (by rw [hs]; decide)
  · intro s user err hu hp hfail _
    exact generateQuiz_provider_failure s user err hu hp hfail
  · intro s industry err hfail _
    exact generateAIInsights_provider_failure s industry err hfail

/-- Witness of C11: the four actions against the provider that fails once and
answers on the second call. -/
theorem transient_failure_by_action_witness :
    improveWithAI
        { userId := some "user_1".toList,
          findUser := fun _ => some { id := "u1".toList, industry := some "tech".toList },
          ai := flakyOnceProvider }
        "Built things.".toList "experience".toList =
      { outcome := .ok "Dear hiring team, I am glad to apply.".toList, calls := 2,
        waits := 1 } ∧
    generateCoverLetter (sampleServer flakyOnceProvider) sampleJob =
      { outcome := .error (.error "Failed to generate cover letter".toList), calls := 1,
        db := [.userFindUnique "user_1".toList] } ∧
    generateQuiz (sampleServer flakyOnceProvider) =
      { outcome := .error (.error "Failed to generate quiz questions".toList), calls := 1,
        db := [.userFindUnique "user_1".toList] } ∧
    generateAIInsights (sampleServer flakyOnceProvider) (some "tech".toList) =
      { outcome := .error (.error "Failed to generate AI insights".toList), calls := 1,
        db := [] } ∧
    (generateQuiz (sampleServer flakyOnceProvider)).calls = 1 ∧
    (generateCoverLetter (sampleServer flakyOnceProvider) sampleJob).calls = 1 :=
  ⟨(transient_failure_by_action.1
      { userId := some "user_1".toList,
        findUser := fun _ => some { id := "u1".toList, industry := some "tech".toList },
        ai := flakyOnceProvider }
      "Built things.".toList "experience".toList
      { id := "u1".toList, industry := some "tech".toList }
      (some "Dear hiring team, I am glad to apply.".toList)
      { status := some 503, message := "The model is overloaded.".toList }
      rfl rfl rfl rfl rfl).trans rfl,
    transient_failure_by_action.2.1 (sampleServer flakyOnceProvider) sampleJob sampleProfile
      { status := some 503, message := "The model is overloaded.".toList } rfl rfl rfl rfl,
    transient_failure_by_action.2.2.1 (sampleServer flakyOnceProvider) sampleProfile
      { status := some 503, message := "The model is overloaded.".toList } rfl rfl rfl rfl,
    transient_failure_by_action.2.2.2 (sampleServer flakyOnceProvider) (some "tech".toList)
      { status := some 503, message := "The model is overloaded.".toList } rfl rfl,
    rfl, rfl⟩

/-- Counterexample of C11 as stated: the provider fails once with status 503
and would answer on the next call, and generateCoverLetter throws. -/
theorem generateCoverLetter_no_retry :
    flakyOnceProvider geminiModel (coverLetterPrompt sampleProfile sampleJob) 0 =
      .fail { status := some 503, message := "The model is overloaded.".toList } ∧
    flakyOnceProvider geminiModel (coverLetterPrompt sampleProfile sampleJob) 1 =
      .ok (some "Dear hiring team, I am glad to apply.".toList) ∧
    generateCoverLetter (sampleServer flakyOnceProvider) sampleJob =
      { outcome := .error (jsError "Failed to generate cover letter"), calls := 1,
        db := [.userFindUnique "user_1".toList] } :=
  ⟨rfl, rfl, rfl⟩

/-- C15: when the answer of the provider to its prompt, after the fence
markers are removed and the text is trimmed, is not valid JSON,
generateAIInsights (for any caller) throws `Failed to generate AI insights`
and generateQuiz (for an authenticated user with a profile) throws
`Failed to generate quiz questions`; neither returns a value, and neither
writes to the database. -/
theorem malformed_json_raises :
    (∀ (s : Server) (industry : Option Str) (text : Option Str),
      s.ai "gemini-2.5-flash".toList (insightsPrompt industry) 0 = .ok text →
      s.parse (trim (stripFences ((text.map trim).getD []))) = none →
      generateAIInsights s industry =
        { outcome := .error (.error "Failed to generate AI insights".toList), calls := 1,
          db := [] }) ∧
    (∀ (s : Server) (user : Profile) (text : Option Str),
      truthy s.userId = true →
      s.db.userFindUnique 0 (s.userId.getD []) = .ok (some user) →
      s.ai "gemini-2.5-flash".toList (quizPrompt user) 0 = .ok text →
      s.parse (trim (stripFences ((text.map trim).getD []))) = none →
      generateQuiz s =
        { outcome := .error (.error "Failed to generate quiz questions".toList), calls := 1,
          db := [.userFindUnique (s.userId.getD [])] }) := by
  constructor
  · intro s industry text ha hna
    have hn : s.parse (cleanedText (responseText text)) = none := by
      rw [cleanedText, responseText_eq]
      exact hna
    rw [generateAIInsights_answer s industry text ha, hn]
    rfl
  · intro s user text hu hp hq hnq
    have hn : s.parse (cleanedText (responseText text)) = none := by
      rw [cleanedText, responseText_eq]
      exact hnq
    rw [generateQuiz_answer s user text hu hp hq, hn]
    rfl

/-- Witness of C15: the provider answers with prose, and with a fenced text
that is not JSON. -/
theorem malformed_json_raises_witness :
    generateAIInsights (anonymousServer proseProvider) (some "tech".toList) =
      { outcome := .error (.error "Failed to generate AI insights".toList), calls := 1,
        db := [] } ∧
    generateQuiz (sampleServer fun _ _ _ => .ok (some "```json\nnot json\n```".toList)) =
      { outcome := .error (.error "Failed to generate quiz questions".toList), calls := 1,
        db := [.userFindUnique "user_1".toList] } :=
  ⟨malformed_json_raises.1 (anonymousServer proseProvider) (some "tech".toList)
      (some "Sorry, here are some thoughts.".toList) rfl rfl,
    malformed_json_raises.2 (sampleServer fun _ _ _ => .ok (some "```json\nnot json\n```".toList))
      sampleProfile (some "```json\nnot json\n```".toList) rfl rfl rfl rfl⟩

theorem generateAIInsights_calls (s : Server) (industry : Option Str) :
    (generateAIInsights s industry).calls = 1 := by
  unfold generateAIInsights
  split
  · rfl
  · split <;> rfl

/-- C16, as the code has it: for a valid JSON text J that holds no fence
marker (three backticks), an answer made of J between an opening fence
(with or without `json`) and a closing fence is cleaned to J trimmed, which
parses to the value of J: generateAIInsights returns that value, and
generateQuiz returns the value of the last `questions` field of the object J
denotes (it throws when J denotes `null`). -/
theorem fenced_json_parses :
    (∀ (j opening : Str),
      opening = "```json\n".toList ∨ opening = "```\n".toList →
      ¬ "```".toList <:+: j →
      trim (stripFences (trim (opening ++ j ++ "\n```".toList))) = trim j) ∧
    (∀ (s : Server) (industry : Option Str) (j opening : Str) (v : Json),
      opening = "```json\n".toList ∨ opening = "```\n".toList →
      ¬ "```".toList <:+: j →
      s.parse j = some v → s.parse (trim j) = s.parse j →
      s.ai "gemini-2.5-flash".toList (insightsPrompt industry) 0 =
        .ok (some (opening ++ j ++ "\n```".toList)) →
      generateAIInsights s industry = { outcome := .ok v, calls := 1, db := [] }) ∧
    (∀ (s : Server) (user : Profile) (j opening : Str) (before after : List (Str × Json))
      (q : Json),
      truthy s.userId = true →
      s.db.userFindUnique 0 (s.userId.getD []) = .ok (some user) →
      opening = "```json\n".toList ∨ opening = "```\n".toList →
      ¬ "```".toList <:+: j →
      (∀ kv ∈ after, kv.1 ≠ "questions".toList) →
      s.parse j = some (.obj (before ++ ("questions".toList, q) :: after)) →
      s.parse (trim j) = s.parse j →
      s.ai "gemini-2.5-flash".toList (quizPrompt user) 0 =
        .ok (some (opening ++ j ++ "\n```".toList)) →
      generateQuiz s =
        { outcome := .ok (some q), calls := 1, db := [.userFindUnique (s.userId.getD [])] }) ∧
    (∀ (s : Server) (user : Profile) (j opening : Str),
      truthy s.userId = true →
      s.db.userFindUnique 0 (s.userId.getD []) = .ok (some user) →
      opening = "```json\n".toList ∨ opening = "```\n".toList →
      ¬ "```".toList <:+: j →
      s.parse j = some .null → s.parse (trim j) = s.parse j →
      s.ai "gemini-2.5-flash".toList (quizPrompt user) 0 =
        .ok (some (opening ++ j ++ "\n```".toList)) →
      generateQuiz s =
        { outcome := .error (.error "Failed to generate quiz questions".toList), calls := 1,
          db := [.userFindUnique (s.userId.getD [])] }) := by
  refine ⟨?_, ?_, ?_, ?_⟩
  · intro j opening ho hj
    have hc := cleanedText_fenced j opening ho hj
    rw [cleanedText, responseText_eq] at hc
    exact hc
  · intro s industry j opening v ho hj hv hw ha
    rw [generateAIInsights_answer s industry _ ha, cleanedText_fenced j opening ho hj, hw, hv]
  · intro s user j opening before after q hu hp ho hj hafter hv hw hq
    have hfind : (after.reverse.find? fun kv => decide (kv.1 = "questions".toList)) = none := by
      rw [List.find?_eq_none]
      intro kv hkv
      have := hafter kv (List.mem_reverse.mp hkv)
      simpa using this
    have e : (before ++ ("questions".toList, q) :: after).reverse =
        after.reverse ++ (("questions".toList, q) :: before.reverse) := by
      simp
    have hlast : questionsOf (.obj (before ++ ("questions".toList, q) :: after)) =
        some (some q) := by
      show some (((before ++ ("questions".toList, q) :: after).reverse.find?
        fun kv => decide (kv.1 = "questions".toList)).map fun kv => kv.2) = some (some q)
      rw [e, List.find?_append, hfind, Option.none_or, List.find?_cons_of_pos _ (by simp)]
      rfl
    rw [generateQuiz_answer s user _ hu hp hq, cleanedText_fenced j opening ho hj, hw, hv,
      Option.some_bind, hlast]
    rfl
  · intro s user j opening hu hp ho hj hv hw hq
    rw [generateQuiz_answer s user _ hu hp hq, cleanedText_fenced j opening ho hj, hw, hv]
    rfl

/-- Witness of C16: a fenced JSON string for the insights, and a fenced quiz
object whose `questions` field is returned; of two fields of that name the
last one counts. -/
theorem fenced_json_parses_witness :
    generateAIInsights
        (sampleServer fun _ _ _ => .ok (some "```json\n\"growing\"\n```".toList))
        (some "tech".toList) =
      { outcome := .ok (.str "growing".toList), calls := 1, db := [] } ∧
    generateQuiz { sampleServer quizProvider with parse := parseQuizObject } =
      { outcome := .ok (some (.arr [.str "What is a mutex?".toList])), calls := 1,
        db := [.userFindUnique "user_1".toList] } ∧
    questionsOf (.obj [("questions".toList, .null), ("questions".toList, .bool true)]) =
      some (some (.bool true)) :=
  ⟨fenced_json_parses.2.1
      (sampleServer fun _ _ _ => .ok (some "```json\n\"growing\"\n```".toList))
      (some "tech".toList) "\"growing\"".toList "```json\n".toList
      (.str "growing".toList) (Or.inl rfl) (by decide) rfl rfl rfl,
    fenced_json_parses.2.2.1 { sampleServer quizProvider with parse := parseQuizObject }
      sampleProfile
      "\x7b\"note\": \"draft\", \"questions\": [\"What is a mutex?\"]\x7d".toList
      "```json\n".toList [("note".toList, .str "draft".toList)] []
      (.arr [.str "What is a mutex?".toList]) rfl rfl (Or.inl rfl) (by decide)
      (by simp) rfl rfl rfl,
    rfl⟩

/-- Counterexample of C16 as stated: the JSON string `"see ```"` between
fences is cleaned to `"see "`, and generateAIInsights returns another value
than the one the text denotes. -/
theorem fenced_json_loses_inner_fence :
    parseStringLiteral "\"see ```\"".toList = some (.str "see ```".toList) ∧
    cleanedText (responseText (some "```json\n\"see ```\"\n```".toList)) =
      "\"see \"".toList ∧
    (generateAIInsights (sampleServer fencedProvider) (some "tech".toList)).outcome =
      .ok (.str "see ".toList) ∧
    Json.str "see ".toList ≠ Json.str "see ```".toList :=
  ⟨rfl, by decide, rfl, fun h => by injection h with h1; exact absurd h1 (by decide)⟩

/-- C14, as the code has it: for an authenticated user with a profile and no
cached industry insight, when the generation of the insight fails,
getIndustryInsights does not throw: it returns the fallback insight (id
`fallback`, the industry of the user or `unknown`, empty lists, growth rate 0,
demand `Medium`, outlook `Neutral`) and writes nothing to the database. -/
theorem getIndustryInsights_fallback (s : Server) (user : Profile) (e : Thrown)
    (hu : truthy s.userId = true)
    (hp : s.db.userFindUnique 0 (s.userId.getD []) = .ok (some user))
    (hn : user.industryInsight = none)
    (hg : (generateAIInsights s user.industry).outcome = .error e) :
    getIndustryInsights s =
      { outcome := .ok (fallbackInsight user s.now), calls := 1, db := lookupLog s } ∧
    fallbackInsight user s.now =
      { id := "fallback".toList, industry := user.industry.getD "unknown".toList,
        salaryRanges := [], growthRate := 0, demandLevel := "Medium".toList, topSkills := [],
        marketOutlook := "Neutral".toList, keyTrends := [], recommendedSkills := [],
        lastUpdated := s.now, nextUpdate := s.now + 86400000 } := by
  refine ⟨?_, rfl⟩
  rw [getIndustryInsights, withUser_found s _ user hu hp]
  simp only [hn, hg, generateAIInsights_calls]

/-- Witness of C14: the provider answers with prose. -/
theorem getIndustryInsights_fallback_witness :
    (getIndustryInsights (sampleServer proseProvider)).outcome =
      .ok (fallbackInsight sampleProfile 1700000000000) :=
  congrArg Act.outcome
    (getIndustryInsights_fallback (sampleServer proseProvider) sampleProfile
      (jsError "Failed to generate AI insights") rfl rfl rfl rfl).1

/-- Counterexample of C14 as stated: the answer of the provider is not JSON,
the generation fails, and getIndustryInsights returns a value. -/
theorem getIndustryInsights_returns_on_failure :
    (generateAIInsights (sampleServer proseProvider) sampleProfile.industry).outcome =
      .error (jsError "Failed to generate AI insights") ∧
    getIndustryInsights (sampleServer proseProvider) =
      { outcome := .ok (fallbackInsight sampleProfile 1700000000000), calls := 1,
        db := [.userFindUnique "user_1".toList] } :=
  ⟨rfl, rfl⟩

/-! ## Authorization and existence checks: claims -/

/-- The actions that check the subject fail with `Unauthorized` before any
database operation and any provider call. -/
theorem unauthorized_fail_fast (s : Server) (env : Env) (data : JobData) (id content : Str)
    (questions : List Question) (answers : List JsVal) (score : Rat) (update : ProfileUpdate)
    (current type : Str)
    (hs : truthy s.userId = false) (he : truthy env.userId = false) :
    generateCoverLetter s data =
      { outcome := .error (jsError "Unauthorized"), calls := 0, db := [] } ∧
    getCoverLetters s = { outcome := .error (jsError "Unauthorized"), calls := 0, db := [] } ∧
    getCoverLetter s id = { outcome := .error (jsError "Unauthorized"), calls := 0, db := [] } ∧
    deleteCoverLetter s id =
      { outcome := .error (jsError "Unauthorized"), calls := 0, db := [] } ∧
    getIndustryInsights s =
      { outcome := .error (jsError "Unauthorized"), calls := 0, db := [] } ∧
    generateQuiz s = { outcome := .error (jsError "Unauthorized"), calls := 0, db := [] } ∧
    saveQuizResult s questions answers score =
      { outcome := .error (jsError "Unauthorized"), calls := 0, db := [] } ∧
    getAssessments s = { outcome := .error (jsError "Unauthorized"), calls := 0, db := [] } ∧
    saveResume s content =
      { outcome := .error (jsError "Unauthorized"), calls := 0, db := [] } ∧
    getResume s = { outcome := .error (jsError "Unauthorized"), calls := 0, db := [] } ∧
    updateUser s update = { outcome := .error (jsError "Unauthorized"), calls := 0, db := [] } ∧
    getUserOnboardingStatus s =
      { outcome := .error (jsError "Unauthorized"), calls := 0, db := [] } ∧
    improveWithAI env current type =
      { outcome := .error (jsError "Unauthorized"), calls := 0, waits := 0 } := by
  refine ⟨withUser_unauthorized s _ hs, withUser_unauthorized s _ hs,
    withUser_unauthorized s _ hs, withUser_unauthorized s _ hs, withUser_unauthorized s _ hs,
    withUser_unauthorized s _ hs, withUser_unauthorized s _ hs, withUser_unauthorized s _ hs,
    withUser_unauthorized s _ hs, withUser_unauthorized s _ hs, withUser_unauthorized s _ hs,
    ?_, ?_⟩
  · simp [getUserOnboardingStatus, hs]
  · simp [improveWithAI, he, jsError]

/-- C18 on the code: without authenticated subject the exported
generateAIInsights does not fail with `Unauthorized`: it calls the provider
and returns the parsed answer. -/
theorem generateAIInsights_without_subject :
    (anonymousServer fun _ _ _ => .ok (some "```json\n\"growing\"\n```".toList)).userId =
      none ∧
    generateAIInsights
        (anonymousServer fun _ _ _ => .ok (some "```json\n\"growing\"\n```".toList))
        (some "tech".toList) =
      { outcome := .ok (.str "growing".toList), calls := 1, db := [] } :=
  ⟨rfl, rfl⟩

/-- C19, as the code has it: for an authenticated subject without profile
record, every action that needs the profile (generateCoverLetter,
getCoverLetters, getCoverLetter, deleteCoverLetter, getIndustryInsights,
generateQuiz, saveQuizResult, getAssessments, saveResume, getResume,
updateUser, improveWithAI) fails with `User not found` after the one lookup,
without retry, provider call or write to the database; getUserOnboardingStatus
returns `isOnboarded: false` instead. -/
theorem user_not_found_fail_fast (s : Server) (env : Env) (data : JobData) (id content : Str)
    (questions : List Question) (answers : List JsVal) (score : Rat) (update : ProfileUpdate)
    (current type : Str)
    (hs : truthy s.userId = true)
    (hp : s.db.userFindUnique 0 (s.userId.getD []) = .ok none)
    (he : truthy env.userId = true) (hf : env.findUser (env.userId.getD []) = none) :
    generateCoverLetter s data =
      { outcome := .error (jsError "User not found"), calls := 0, db := lookupLog s } ∧
    getCoverLetters s =
      { outcome := .error (jsError "User not found"), calls := 0, db := lookupLog s } ∧
    getCoverLetter s id =
      { outcome := .error (jsError "User not found"), calls := 0, db := lookupLog s } ∧
    deleteCoverLetter s id =
      { outcome := .error (jsError "User not found"), calls := 0, db := lookupLog s } ∧
    getIndustryInsights s =
      { outcome := .error (jsError "User not found"), calls := 0, db := lookupLog s } ∧
    generateQuiz s =
      { outcome := .error (jsError "User not found"), calls := 0, db := lookupLog s } ∧
    saveQuizResult s questions answers score =
      { outcome := .error (jsError "User not found"), calls := 0, db := lookupLog s } ∧
    getAssessments s =
      { outcome := .error (jsError "User not found"), calls := 0, db := lookupLog s } ∧
    saveResume s content =
      { outcome := .error (jsError "User not found"), calls := 0, db := lookupLog s } ∧
    getResume s =
      { outcome := .error (jsError "User not found"), calls := 0, db := lookupLog s } ∧
    updateUser s update =
      { outcome := .error (jsError "User not found"), calls := 0, db := lookupLog s } ∧
    improveWithAI env current type =
      { outcome := .error (jsError "User not found"), calls := 0, waits := 0 } ∧
    lookupLog s = [.userFindUnique (s.userId.getD [])] ∧
    (lookupLog s).all (fun op => !op.isWrite) = true ∧
    getUserOnboardingStatus s =
      { outcome := .ok { isOnboarded := false }, calls := 0, db := lookupLog s } := by
  refine ⟨withUser_not_found s _ hs hp, withUser_not_found s _ hs hp,
    withUser_not_found s _ hs hp, withUser_not_found s _ hs hp, withUser_not_found s _ hs hp,
    withUser_not_found s _ hs hp, withUser_not_found s _ hs hp, withUser_not_found s _ hs hp,
    withUser_not_found s _ hs hp, withUser_not_found s _ hs hp, withUser_not_found s _ hs hp,
    ?_, rfl, rfl, ?_⟩
  · simp [improveWithAI, he, hf, jsError]
  · unfold getUserOnboardingStatus
    rw [if_neg (by simp [hs]), hp]
    rfl

/-- Witness of C19: a signed-in user without profile record asks for a quiz
and for an improved text. -/
theorem user_not_found_fail_fast_witness :
    generateQuiz (newcomerServer proseProvider) =
      { outcome := .error (jsError "User not found"), calls := 0,
        db := [.userFindUnique "user_1".toList] } ∧
    (improveWithAI
        { userId := some "user_1".toList, findUser := fun _ => none, ai := proseProvider }
        "Built things.".toList "experience".toList).outcome =
      .error (jsError "User not found") :=
  have h := user_not_found_fail_fast (newcomerServer proseProvider)
    { userId := some "user_1".toList, findUser := fun _ => none, ai := proseProvider }
    sampleJob "c1".toList "## Ada".toList sampleQuestions sampleAnswers 50
    { industry := some "tech".toList, experience := some 5, bio := none, skills := none }
    "Built things.".toList "experience".toList rfl rfl rfl rfl
  ⟨h.2.2.2.2.2.1, congrArg Run.outcome h.2.2.2.2.2.2.2.2.2.2.2.1⟩

/-- Counterexample of C19 as stated: for a signed-in user without profile
record getUserOnboardingStatus does not fail with `User not found`; it
returns `isOnboarded: false`. -/
theorem onboarding_status_without_profile :
    (newcomerServer proseProvider).db.userFindUnique 0 "user_1".toList = .ok none ∧
    getUserOnboardingStatus (newcomerServer proseProvider) =
      { outcome := .ok { isOnboarded := false }, calls := 0,
        db := [.userFindUnique "user_1".toList] } :=
  ⟨rfl, rfl⟩

/-! ## The PDF renderer: claims -/

/-- The guard of the three helpers: a block that fits on a page alone is
written with the cursor and its height within the page height minus the
margin. -/
theorem breakIfOverflow_fits (paper : Paper) (height : Nat) (d : PdfDoc)
    (h : height + 2 * margin ≤ paper.height) :
    (breakIfOverflow paper height d).yPosition + height + margin ≤ paper.height := by
  unfold breakIfOverflow
  split
  · simp only
    omega
  · omega

/-- C20 on the code: with twenty experience entries that hold a position
only, no page is ever added, and the title line of the last entry is written
on page 1 at 312 mm, below the page height minus the margin (272 mm) and
below the page itself (297 mm), without any check. -/
theorem generatePDF_title_below_page :
    (generatePDF a4 none longForm).pages = 1 ∧
    ({ kind := .entryTitle, lines := ["Engineer".toList], page := 1, y := 31200 } : TextWrite) ∈
      (generatePDF a4 none longForm).texts ∧
    a4.height - margin < 31200 ∧ a4.height < 31200 := by
  decide

/-! ## The entry split of the preview: claims -/

/-- No line of the content of a parsed section is blank, unless the content
is empty. -/
theorem content_lines_not_blank (content : Str) :
    ∀ s ∈ parsedContent content, ∀ l ∈ splitLines s.content,
      isBlank l = true → s.content = [] := by
  intro s hs
  rw [parsedContent_eq] at hs
  obtain ⟨b, hb, e⟩ := List.mem_map.mp (List.mem_of_mem_filter hs)
  rw [← e]
  apply no_blank_line_in_trim_join
  intro l hl
  have hl2 := List.mem_filter.mp hl
  exact ⟨no_nl_of_mem_splitLines content l (mem_of_mem_headerBlocks _ b hb l hl2.1),
    by simpa using hl2.2⟩

theorem no_blank_separator (t : Str)
    (h : ∀ l ∈ splitLines t, isBlank l = true → t = []) :
    ¬ "\n\n".toList <:+: t := by
  rintro ⟨a, b, e⟩
  have e1 : a ++ "\n\n".toList ++ b = a ++ '\n' :: ('\n' :: b) := by simp
  have hm : ([] : Str) ∈ splitLines t := by
    rw [← e, e1, splitLines_append_nl, splitLines_cons_nl]
    simp
  have ht := h [] hm rfl
  rw [ht, e1] at e
  simp at e

theorem splitBlank_of_no_separator :
    ∀ t : Str, ¬ "\n\n".toList <:+: t → splitBlank t = [t]
  | [], _ => rfl
  | [_], _ => rfl
  | c :: d :: cs, h => by
    have h1 : ¬ (c = '\n' ∧ d = '\n') := by
      rintro ⟨hc, hd⟩
      exact h ⟨[], cs, by simp [hc, hd]⟩
    have ih := splitBlank_of_no_separator (d :: cs) (by
      rintro ⟨a, b, e⟩
      exact h ⟨c :: a, b, by simp [← e]⟩)
    rw [splitBlank, if_neg h1, ih]

/-- C24: the content of every section the parser returns contains no blank
line, that is no occurrence of two line feeds in a row, so the split of the
preview on this separator gives exactly one block, the whole content,
whatever the number of entries in the section. -/
theorem parsedContent_single_block (content : Str) :
    ∀ s ∈ parsedContent content,
      ¬ "\n\n".toList <:+: s.content ∧ splitBlank s.content = [s.content] ∧
        (splitBlank s.content).length = 1 := by
  intro s hs
  have h := no_blank_separator s.content (content_lines_not_blank content s hs)
  have e := splitBlank_of_no_separator s.content h
  exact ⟨h, e, by rw [e]; rfl⟩

/-- Witness of C24: a section of two entries, as the assembler writes it, is
one block for the preview. -/
theorem parsedContent_single_block_witness :
    (parsedContent
        "## Work Experience\n\n### Engineer @ Acme\n\nBuilt it.\n\n### Analyst @ Bolt\n\nWrote.".toList).map
      (fun s => splitBlank s.content) =
      [["### Engineer @ Acme\nBuilt it.\n### Analyst @ Bolt\nWrote.".toList]] := by
  have h := parsedContent_single_block
    "## Work Experience\n\n### Engineer @ Acme\n\nBuilt it.\n\n### Analyst @ Bolt\n\nWrote.".toList
    { title := "Work Experience".toList,
      content := "### Engineer @ Acme\nBuilt it.\n### Analyst @ Bolt\nWrote.".toList }
    (by decide)
  have e : parsedContent
      "## Work Experience\n\n### Engineer @ Acme\n\nBuilt it.\n\n### Analyst @ Bolt\n\nWrote.".toList =
      [{ title := "Work Experience".toList,
         content := "### Engineer @ Acme\nBuilt it.\n### Analyst @ Bolt\nWrote.".toList }] := by
    decide
  rw [e]
  simp only [List.map_cons, List.map_nil]
  rw [h.2.1]

/-! ## The quiz: claims -/

/-- C25: for an authenticated user with a profile, when the answer of the
provider, cleaned, is valid JSON for an object without `questions` field,
generateQuiz does not throw and returns `undefined`; it throws
`Failed to generate quiz questions` exactly when the provider call fails, the
cleaned text is not valid JSON, or the parsed value is `null`. -/
theorem generateQuiz_without_questions (s : Server) (user : Profile)
    (hu : truthy s.userId = true)
    (hp : s.db.userFindUnique 0 (s.userId.getD []) = .ok (some user)) :
    (∀ text fields, s.ai geminiModel (quizPrompt user) 0 = .ok text →
      s.parse (cleanedText (responseText text)) = some (.obj fields) →
      (∀ kv ∈ fields, kv.1 ≠ "questions".toList) →
      generateQuiz s = { outcome := .ok none, calls := 1, db := lookupLog s }) ∧
    ((generateQuiz s).outcome = .error (jsError "Failed to generate quiz questions") ↔
      (∃ err, s.ai geminiModel (quizPrompt user) 0 = .fail err) ∨
      ∃ text, s.ai geminiModel (quizPrompt user) 0 = .ok text ∧
        (s.parse (cleanedText (responseText text)) = none ∨
          s.parse (cleanedText (responseText text)) = some .null)) := by
  constructor
  · intro text fields hok hparse hno
    rw [generateQuiz_answer s user text hu hp hok, hparse]
    have hfind : (fields.reverse.find? fun kv => kv.1 = "questions".toList) = none := by
      rw [List.find?_eq_none]
      intro kv hkv
      have := hno kv (List.mem_reverse.mp hkv)
      simpa using this
    simp only [Option.some_bind, questionsOf, hfind, Option.map_none']
  · have hcase : (∃ err, s.ai geminiModel (quizPrompt user) 0 = .fail err) ∨
        ∃ text, s.ai geminiModel (quizPrompt user) 0 = .ok text := by
      cases h : s.ai geminiModel (quizPrompt user) 0 with
      | ok text => exact Or.inr ⟨text, rfl⟩
      | fail err => exact Or.inl ⟨err, rfl⟩
    rcases hcase with ⟨err, hr⟩ | ⟨text, hr⟩
    · rw [generateQuiz_provider_failure s user err hu hp hr]
      exact ⟨fun _ => Or.inl ⟨err, hr⟩, fun _ => rfl⟩
    · rw [generateQuiz_answer s user text hu hp hr]
      have hback : ((∃ err, s.ai geminiModel (quizPrompt user) 0 = .fail err) ∨
          ∃ text2, s.ai geminiModel (quizPrompt user) 0 = .ok text2 ∧
            (s.parse (cleanedText (responseText text2)) = none ∨
              s.parse (cleanedText (responseText text2)) = some .null)) →
          s.parse (cleanedText (responseText text)) = none ∨
            s.parse (cleanedText (responseText text)) = some .null := by
        rintro (⟨err, h⟩ | ⟨text2, h, hpar⟩)
        · rw [hr] at h
          exact GenResult.noConfusion h
        · rw [hr] at h
          have e : text = text2 := by injection h
          rw [e]
          exact hpar
      have hpc : s.parse (cleanedText (responseText text)) = none ∨
          ∃ v, s.parse (cleanedText (responseText text)) = some v := by
        cases h : s.parse (cleanedText (responseText text)) with
        | none => exact Or.inl rfl
        | some v => exact Or.inr ⟨v, rfl⟩
      rcases hpc with hn | ⟨v, hv⟩
      · constructor
        · intro _
          exact Or.inr ⟨text, hr, Or.inl hn⟩
        · intro _
          rw [hn]
          rfl
      · constructor
        · intro hout
          refine Or.inr ⟨text, hr, Or.inr ?_⟩
          rw [hv] at hout ⊢
          cases v with
          | null => rfl
          | bool b => exact Except.noConfusion hout
          | num n => exact Except.noConfusion hout
          | str t => exact Except.noConfusion hout
          | arr items => exact Except.noConfusion hout
          | obj fields => exact Except.noConfusion hout
        · intro hrhs
          rcases hback hrhs with h | h
          · rw [h]
            rfl
          · rw [h]
            rfl

/-- Witness of C25: the provider answers with an object that has the field
`items` only, and generateQuiz returns `undefined`. -/
theorem generateQuiz_without_questions_witness :
    generateQuiz { sampleServer objectProvider with parse := parseItemsObject } =
      { outcome := .ok none, calls := 1, db := [.userFindUnique "user_1".toList] } :=
  (generateQuiz_without_questions
      { sampleServer objectProvider with parse := parseItemsObject } sampleProfile rfl rfl).1
    (some "```json\n\x7b\"items\": []\x7d\n```".toList) [("items".toList, .arr [])] rfl
    rfl (by decide)

theorem questionResultsFrom_length (answers : List JsVal) (k : Nat) (qs : List Question) :
    (questionResultsFrom answers k qs).length = qs.length := by
  induction qs generalizing k with
  | nil => rfl
  | cons q qs ih => simp [questionResultsFrom, ih]

theorem questionResultsFrom_getElem? (answers : List JsVal) (k : Nat) (qs : List Question)
    (i : Nat) :
    (questionResultsFrom answers k qs)[i]? = (qs[i]?).map (resultOf answers (k + i)) := by
  induction qs generalizing k i with
  | nil => simp [questionResultsFrom]
  | cons q qs ih =>
    cases i with
    | zero => simp [questionResultsFrom, resultOf]
    | succ j =>
      simp only [questionResultsFrom, List.getElem?_cons_succ]
      rw [ih (k + 1) j]
      have e : k + 1 + j = k + (j + 1) := by omega
      rw [e]

/-! ## The PDF renderer: footers -/

theorem grows_refl (d : PdfDoc) : Grows d d := ⟨[], by simp, by simp⟩

theorem grows_of_texts {d e e2 : PdfDoc} (h : Grows d e) (ht : e2.texts = e.texts) :
    Grows d e2 := by
  obtain ⟨ws, e1, hw⟩ := h
  exact ⟨ws, by rw [ht, e1], hw⟩

theorem grows_advance {d e : PdfDoc} (n : Nat) (h : Grows d e) : Grows d (advance n e) :=
  grows_of_texts h rfl

theorem grows_break {d e : PdfDoc} (paper : Paper) (n : Nat) (h : Grows d e) :
    Grows d (breakIfOverflow paper n e) := by
  apply grows_of_texts h
  unfold breakIfOverflow
  split <;> rfl

theorem grows_font {d e : PdfDoc} (font : Font) (h : Grows d e) :
    Grows d { e with font := font } :=
  grows_of_texts h rfl

theorem grows_writeText {d e : PdfDoc} (kind : BlockKind) (lines : List Str)
    (hk : kind ≠ .footer) (h : Grows d e) : Grows d (writeText kind lines e) := by
  obtain ⟨ws, e1, hw⟩ := h
  refine ⟨ws ++ [{ kind := kind, lines := lines, page := e.page, y := e.yPosition }], ?_, ?_⟩
  · simp [writeText, e1]
  · intro w hm
    rcases List.mem_append.mp hm with h1 | h1
    · exact hw w h1
    · rw [List.mem_singleton.mp h1]
      exact hk

theorem grows_ite {d a b : PdfDoc} (c : Prop) [Decidable c] (ha : Grows d a) (hb : Grows d b) :
    Grows d (if c then a else b) := by
  split
  · exact ha
  · exact hb

theorem grows_foldl {α : Type} (f : PdfDoc → α → PdfDoc)
    (hf : ∀ {d e : PdfDoc} (x : α), Grows d e → Grows d (f e x)) (xs : List α) {d e : PdfDoc}
    (h : Grows d e) : Grows d (xs.foldl f e) := by
  induction xs generalizing e with
  | nil => exact h
  | cons x xs ih => exact ih (hf x h)

theorem grows_writeLine {d e : PdfDoc} (kind : BlockKind) (font : Font) (text : Str) (dy : Nat)
    (hk : kind ≠ .footer) (h : Grows d e) : Grows d (writeLine kind font text dy e) :=
  grows_advance _ (grows_writeText _ _ hk (grows_font _ h))

theorem grows_addSectionHeader {d e : PdfDoc} (paper : Paper) (title : Str) (h : Grows d e) :
    Grows d (addSectionHeader paper title e) :=
  grows_advance _ (grows_advance _ (grows_writeText _ _ (by decide)
    (grows_break _ _ (grows_font _ h))))

theorem grows_addBodyText {d e : PdfDoc} (paper : Paper) (text : Str) (fontSize : Nat)
    (isBold : Bool) (spacing : Nat) (h : Grows d e) :
    Grows d (addBodyText paper text fontSize isBold spacing e) :=
  grows_advance _ (grows_writeText _ _ (by decide) (grows_break _ _ (grows_font _ h)))

theorem grows_addBullet (paper : Paper) {d e : PdfDoc} (item : Str) (h : Grows d e) :
    Grows d (addBullet paper e item) :=
  grows_advance _ (grows_writeText _ _ (by decide) (grows_break _ _ (grows_font _ h)))

theorem grows_addBulletList {d e : PdfDoc} (paper : Paper) (items : List Str)
    (h : Grows d e) : Grows d (addBulletList paper items e) :=
  grows_advance _ (grows_foldl _ (grows_addBullet paper) items h)

theorem grows_addExperience (paper : Paper) {d e : PdfDoc} (exp : Entry) (h : Grows d e) :
    Grows d (addExperience paper e exp) := by
  have h1 := grows_ite ((!(entryTitleText exp).isEmpty) = true)
    (grows_writeLine .entryTitle { size := 12, style := .bold } (entryTitleText exp) 500
      (by decide) h) h
  have h2 := grows_ite ((!exp.duration.isEmpty) = true)
    (grows_writeLine .duration { size := 10, style := .italic } exp.duration 500
      (by decide) h1) h1
  have h3 := grows_ite ((!exp.description.isEmpty) = true)
    (grows_addBulletList paper (descriptionLines exp.description) h2) h2
  exact grows_advance 800 h3

theorem grows_addProject (paper : Paper) {d e : PdfDoc} (proj : Entry) (h : Grows d e) :
    Grows d (addProject paper e proj) := by
  have h1 := grows_ite ((!proj.title.isEmpty) = true)
    (grows_writeLine .entryTitle { size := 12, style := .bold } proj.title 500
      (by decide) h) h
  have h2 := grows_ite ((!proj.duration.isEmpty) = true)
    (grows_writeLine .duration { size := 10, style := .italic } proj.duration 500
      (by decide) h1) h1
  have h3 := grows_ite ((!proj.description.isEmpty) = true)
    (grows_addBulletList paper (descriptionLines proj.description) h2) h2
  exact grows_advance 800 h3

theorem grows_addEducation (paper : Paper) {d e : PdfDoc} (edu : Entry) (h : Grows d e) :
    Grows d (addEducation paper e edu) := by
  have h1 := grows_ite ((!(entryTitleText edu).isEmpty) = true)
    (grows_writeLine .entryTitle { size := 12, style := .bold } (entryTitleText edu) 500
      (by decide) h) h
  unfold addEducation
  simp only []
  split
  · exact grows_advance _ (grows_writeText _ _ (by decide) (grows_font _ h1))
  · exact h1

/-- The texts laid out before the page numbers hold no footer. -/
theorem grows_layoutPDF (paper : Paper) (fullName : Option Str) (f : FormValues) :
    Grows newDoc (layoutPDF paper fullName f) := by
  have h0 : Grows newDoc
      (writeLine .name { size := 28, style := .bold } (displayName fullName) 1200 newDoc) :=
    grows_writeLine _ _ _ _ (by decide) (grows_refl _)
  have h1 := grows_advance 1200 (grows_ite ((contactLines f.contactInfo).length > 0)
    (grows_writeLine .contact { size := 10, style := .normal }
      (join " | ".toList (contactLines f.contactInfo)) 1500 (by decide) h0) h0)
  have h2 := grows_ite (truthy f.summary = true)
    (grows_addBodyText paper (f.summary.getD []) 11 false 800
      (grows_addSectionHeader paper "Professional Summary".toList h1)) h1
  have h3 := grows_ite (truthy f.skills = true)
    (grows_addBodyText paper (skillsText (f.skills.getD [])) 11 false 800
      (grows_addSectionHeader paper "Skills".toList h2)) h2
  have h4 := grows_ite (f.experience.length > 0)
    (grows_foldl _ (grows_addExperience paper) f.experience
      (grows_addSectionHeader paper "Work Experience".toList h3)) h3
  have h5 := grows_ite (f.education.length > 0)
    (grows_foldl _ (grows_addEducation paper) f.education
      (grows_addSectionHeader paper "Education".toList h4)) h4
  have h6 := grows_ite (f.projects.length > 0)
    (grows_foldl _ (grows_addProject paper) f.projects
      (grows_addSectionHeader paper "Projects".toList h5)) h5
  exact h6

theorem layoutPDF_no_footer (paper : Paper) (fullName : Option Str) (f : FormValues) :
    ∀ w ∈ (layoutPDF paper fullName f).texts, w.kind ≠ BlockKind.footer := by
  obtain ⟨ws, e, hw⟩ := grows_layoutPDF paper fullName f
  intro w hm
  rw [e] at hm
  exact hw w (by simpa [newDoc] using hm)

theorem foldl_stampPage (paper : Paper) (pageCount : Nat) (is : List Nat) (d : PdfDoc) :
    (is.foldl (stampPage paper pageCount) d).texts =
        d.texts ++ is.map (pageFooter paper pageCount) ∧
      (is.foldl (stampPage paper pageCount) d).pages = d.pages := by
  induction is generalizing d with
  | nil => simp
  | cons i is ih =>
    rw [List.foldl_cons]
    obtain ⟨h1, h2⟩ := ih (stampPage paper pageCount d i)
    rw [h1, h2]
    simp [stampPage, pageFooter]

/-! ## The PDF renderer: claims -/

/-- C21 on the code: the content of twenty experience entries that hold a
position only is laid out down to 325 mm from the top, past the page height
minus the margin (272 mm), and the document still has one page. -/
theorem generatePDF_overflow_single_page :
    (layoutPDF a4 none longForm).yPosition = 32500 ∧
    a4.height - margin < (layoutPDF a4 none longForm).yPosition ∧
    (generatePDF a4 none longForm).pages = 1 := by
  decide

/-- C22: after the content is laid out, generatePDF stamps every page: with
N the final page count, the footers of the document are, for the pages 1 to
N in order, one footer each, with the text `Page i of N` on page i; they come
after every other text, and no other text of the document is a footer. The
stamping does not change the page count. -/
theorem generatePDF_footers (paper : Paper) (fullName : Option Str) (f : FormValues) :
    (generatePDF paper fullName f).pages = (layoutPDF paper fullName f).pages ∧
    (generatePDF paper fullName f).texts =
      (layoutPDF paper fullName f).texts ++
        (List.range (generatePDF paper fullName f).pages).map
          (fun i => pageFooter paper (generatePDF paper fullName f).pages (i + 1)) ∧
    (∀ w ∈ (layoutPDF paper fullName f).texts, w.kind ≠ BlockKind.footer) ∧
    (generatePDF paper fullName f).texts.filter (fun w => decide (w.kind = BlockKind.footer)) =
      (List.range (generatePDF paper fullName f).pages).map
        (fun i => pageFooter paper (generatePDF paper fullName f).pages (i + 1)) ∧
    (∀ n i, pageFooter paper n i =
      { kind := .footer,
        lines := ["Page ".toList ++ (toString i).toList ++ " of ".toList ++
                   (toString n).toList],
        page := i, y := paper.height - 1000 }) := by
  have hs := foldl_stampPage paper (layoutPDF paper fullName f).pages
    ((List.range (layoutPDF paper fullName f).pages).map fun i => i + 1)
    (layoutPDF paper fullName f)
  have hp : (generatePDF paper fullName f).pages = (layoutPDF paper fullName f).pages := hs.2
  have ht : (generatePDF paper fullName f).texts =
      (layoutPDF paper fullName f).texts ++
        (List.range (generatePDF paper fullName f).pages).map
          (fun i => pageFooter paper (generatePDF paper fullName f).pages (i + 1)) := by
    rw [hp]
    have := hs.1
    rw [List.map_map] at this
    exact this
  have hn := layoutPDF_no_footer paper fullName f
  refine ⟨hp, ht, hn, ?_, fun _ _ => rfl⟩
  rw [ht, List.filter_append]
  have e1 : (layoutPDF paper fullName f).texts.filter
      (fun w => decide (w.kind = BlockKind.footer)) = [] := by
    rw [List.filter_eq_nil_iff]
    intro w hw
    simpa using hn w hw
  have e2 : ((List.range (generatePDF paper fullName f).pages).map
      (fun i => pageFooter paper (generatePDF paper fullName f).pages (i + 1))).filter
      (fun w => decide (w.kind = BlockKind.footer)) =
      (List.range (generatePDF paper fullName f).pages).map
        (fun i => pageFooter paper (generatePDF paper fullName f).pages (i + 1)) := by
    rw [List.filter_eq_self]
    intro w hw
    obtain ⟨i, _, e⟩ := List.mem_map.mp hw
    rw [← e]
    rfl
  rw [e1, e2, List.nil_append]

theorem stripBullet_glyph (g : Char) (rest : Str) (h : isGlyph g = true) :
    stripBullet (g :: rest) = trimStart rest := by
  have h1 : g = '•' ∨ g = '-' := by
    simpa [isGlyph] using h
  rw [stripBullet, if_pos h1]
  rfl

theorem stripBullet_plain (t : Str) (h : startsWithGlyph t = false) : stripBullet t = t := by
  cases t with
  | nil => rfl
  | cons c cs =>
    have h1 : ¬ (c = '•' ∨ c = '-') := by
      intro hc
      have : isGlyph c = true := by simpa [isGlyph] using hc
      rw [startsWithGlyph, this] at h
      exact Bool.noConfusion h
    rw [stripBullet, if_neg h1]

/-- C23, as the code has it: the bullet items of a description are its
non-blank lines, in order and one item per line, each trimmed and stripped of
one leading bullet or dash glyph together with the white space after it; a
line without leading glyph is only trimmed; an item begins with a glyph only
when its line had a second glyph after the first one and the white space
behind it. -/
theorem descriptionLines_items (description : Str) :
    descriptionLines description =
      ((splitLines description).filter fun l => !isBlank l).map
        (fun l => stripBullet (trim l)) ∧
    (∀ g rest, isGlyph g = true → stripBullet (g :: rest) = trimStart rest) ∧
    (∀ t, startsWithGlyph t = false → stripBullet t = t) ∧
    (∀ t, startsWithGlyph (stripBullet t) = true →
      ∃ g ws, isGlyph g = true ∧ ws.all isWhiteSpace = true ∧ t = g :: ws ++ stripBullet t) := by
  refine ⟨?_, stripBullet_glyph, stripBullet_plain, ?_⟩
  · unfold descriptionLines
    congr 1
    apply List.filter_congr
    intro l _
    exact truthy_trim l
  · intro t ht
    cases hg : startsWithGlyph t with
    | false =>
      rw [stripBullet_plain t hg, hg] at ht
      exact Bool.noConfusion ht
    | true =>
      cases t with
      | nil => exact Bool.noConfusion hg
      | cons g rest =>
        have hg2 : isGlyph g = true := hg
        refine ⟨g, rest.takeWhile isWhiteSpace, hg2, ?_, ?_⟩
        · rw [List.all_eq_true]
          intro c hc
          exact List.mem_takeWhile_imp hc
        · rw [stripBullet_glyph g rest hg2, trimStart, List.cons_append,
            List.takeWhile_append_dropWhile]

/-- Counterexample of C23 as stated: the line `-- Shipped` gives the item
`- Shipped`, which begins with a dash. -/
theorem descriptionLines_keeps_second_glyph :
    descriptionLines "Led the team\n-- Shipped\n• - Tested".toList =
      ["Led the team".toList, "- Shipped".toList, "- Tested".toList] ∧
    startsWithGlyph "- Shipped".toList = true := by
  decide

/-! ## The quiz result: claims -/

theorem isCorrect_of_mem (answers : List JsVal) (k : Nat) (qs : List Question) :
    ∀ r ∈ questionResultsFrom answers k qs, r.isCorrect = decide (r.answer = r.userAnswer) := by
  induction qs generalizing k with
  | nil => simp [questionResultsFrom]
  | cons q qs ih =>
    intro r hr
    rcases List.mem_cons.mp hr with h | h
    · rw [h]
    · exact ih (k + 1) r h

theorem questionResults_getElem? (questions : List Question) (answers : List JsVal) (i : Nat) :
    (questionResults questions answers)[i]? =
      (questions[i]?).map fun q =>
        { question := q.question, answer := q.correctAnswer,
          userAnswer := answers.getD i .undefined,
          isCorrect := decide (q.correctAnswer = answers.getD i .undefined),
          explanation := q.explanation } := by
  have := questionResultsFrom_getElem? answers 0 questions i
  rw [Nat.zero_add] at this
  exact this

theorem all_right_iff_no_wrong (questions : List Question) (answers : List JsVal) :
    ((questionResults questions answers).all fun r => decide (r.answer = r.userAnswer)) = true ↔
      (questionResults questions answers).filter
        (fun r => decide (r.answer ≠ r.userAnswer)) = [] := by
  rw [List.filter_eq_nil_iff, List.all_eq_true]
  constructor
  · intro h r hr
    simpa using h r hr
  · intro h r hr
    simpa using h r hr

/-- The improvement tip and the number of provider calls made for it. -/
theorem improvementTipOf_eq (s : Server) (user : Profile) (questions : List Question)
    (answers : List JsVal)
    (hwrong : wrongAnswers (questionResults questions answers) =
      (questionResults questions answers).filter fun r => decide (r.answer ≠ r.userAnswer)) :
    improvementTipOf s user (questionResults questions answers) =
      if ((questionResults questions answers).all
          fun r => decide (r.answer = r.userAnswer)) = true then (none, 0)
      else
        match s.ai "gemini-2.5-flash".toList
          (improvementPrompt user ((questionResults questions answers).filter
            fun r => decide (r.answer ≠ r.userAnswer))) 0 with
        | .ok text => (some ((text.map trim).getD []), 1)
        | .fail _ => (none, 1) := by
  unfold improvementTipOf
  rw [hwrong]
  by_cases hall : ((questionResults questions answers).all
      fun r => decide (r.answer = r.userAnswer)) = true
  · rw [if_pos hall, (all_right_iff_no_wrong questions answers).mp hall]
    rfl
  · have hne : (questionResults questions answers).filter
        (fun r => decide (r.answer ≠ r.userAnswer)) ≠ [] :=
      fun e => hall ((all_right_iff_no_wrong questions answers).mpr e)
    have hlen : ((questionResults questions answers).filter
        (fun r => decide (r.answer ≠ r.userAnswer))).length > 0 :=
      List.length_pos.mpr hne
    rw [if_neg hall, if_pos hlen]
    unfold runLLMOnce
    cases s.ai "gemini-2.5-flash".toList
      (improvementPrompt user ((questionResults questions answers).filter
        fun r => decide (r.answer ≠ r.userAnswer))) 0 with
    | ok text => simp only [responseText_eq]
    | fail err => rfl

theorem not_all_right_of_wrong (questions : List Question) (answers : List JsVal)
    (hw : ∃ i q, questions[i]? = some q ∧ q.correctAnswer ≠ answers.getD i .undefined) :
    ¬ ((questionResults questions answers).all
      fun r => decide (r.answer = r.userAnswer)) = true := by
  obtain ⟨i, q, hq, hne⟩ := hw
  intro hall
  have hr := questionResults_getElem? questions answers i
  rw [hq, Option.map_some'] at hr
  have hmem := List.getElem?_mem hr
  have := (List.all_eq_true.mp hall) _ hmem
  simp only [decide_eq_true_eq] at this
  exact hne this

/-- C17: for an authenticated user with a profile and a quiz with at least
one wrong answer (a question whose correctAnswer is not the answer at its
index), when the generation of the improvement tip fails, with any error,
saveQuizResult has called the provider once, still creates the assessment,
with the id of the user, the score, the results, the category `Technical` and
improvementTip `null`, and returns the stored record when the database
accepts it; the failure of the tip does not abort the action. -/
theorem saveQuizResult_tip_failure (s : Server) (questions : List Question)
    (answers : List JsVal) (score : Rat) (user : Profile) (err : ProviderError)
    (stored : Assessment)
    (hu : truthy s.userId = true)
    (hp : s.db.userFindUnique 0 (s.userId.getD []) = .ok (some user))
    (hw : ∃ i q, questions[i]? = some q ∧ q.correctAnswer ≠ answers.getD i .undefined)
    (hf : s.ai "gemini-2.5-flash".toList
      (improvementPrompt user ((questionResults questions answers).filter
        fun r => decide (r.answer ≠ r.userAnswer))) 0 = .fail err)
    (hc : s.db.assessmentCreate 1
      { userId := user.id, quizScore := score, questions := questionResults questions answers,
        category := "Technical".toList, improvementTip := none } = .ok stored) :
    saveQuizResult s questions answers score =
      { outcome := .ok stored, calls := 1,
        db := [ .userFindUnique (s.userId.getD []),
                .assessmentCreate
                  { userId := user.id, quizScore := score,
                    questions := questionResults questions answers,
                    category := "Technical".toList, improvementTip := none } ] } ∧
    (∀ i : Nat, (questionResults questions answers)[i]? =
      (questions[i]?).map fun q =>
        ({ question := q.question, answer := q.correctAnswer,
           userAnswer := answers.getD i .undefined,
           isCorrect := decide (q.correctAnswer = answers.getD i .undefined),
           explanation := q.explanation } : QuestionResult)) := by
  have hwrong : wrongAnswers (questionResults questions answers) =
      (questionResults questions answers).filter
        fun r => decide (r.answer ≠ r.userAnswer) := by
    unfold wrongAnswers
    apply List.filter_congr
    intro r hr
    rw [isCorrect_of_mem answers 0 questions r hr]
    simp
  refine ⟨?_, questionResults_getElem? questions answers⟩
  rw [saveQuizResult, withUser_found s _ user hu hp]
  have ht : improvementTipOf s user (questionResults questions answers) = (none, 1) := by
    rw [improvementTipOf_eq s user questions answers hwrong,
      if_neg (not_all_right_of_wrong questions answers hw), hf]
  have hd : assessmentData user (questionResults questions answers) score none =
      { userId := user.id, quizScore := score, questions := questionResults questions answers,
        category := "Technical".toList, improvementTip := none } := rfl
  simp only [ht, hd, hc]
  rfl

/-- Witness of C17: the second question is left without answer and the
provider is out of quota. -/
theorem saveQuizResult_tip_failure_witness :
    saveQuizResult (sampleServer quotaProvider) sampleQuestions [.str "A lock".toList] 50 =
      { outcome :=
          .ok { id := "a1".toList,
                data :=
                  { userId := "u1".toList, quizScore := 50,
                    questions := questionResults sampleQuestions [.str "A lock".toList],
                    category := "Technical".toList, improvementTip := none } },
        calls := 1,
        db := [ .userFindUnique "user_1".toList,
                .assessmentCreate
                  { userId := "u1".toList, quizScore := 50,
                    questions := questionResults sampleQuestions [.str "A lock".toList],
                    category := "Technical".toList, improvementTip := none } ] } ∧
    (questionResults sampleQuestions [.str "A lock".toList]).map
        (fun r => (r.userAnswer, r.isCorrect)) =
      [(.str "A lock".toList, true), (.undefined, false)] ∧
    (saveQuizResult (sampleServer quotaProvider) sampleQuestions [.str "A lock".toList] 50).calls =
      1 :=
  ⟨(saveQuizResult_tip_failure (sampleServer quotaProvider) sampleQuestions
      [.str "A lock".toList] 50
      sampleProfile { status := some 429, message := "Quota exceeded.".toList }
      { id := "a1".toList,
        data :=
          { userId := "u1".toList, quizScore := 50,
            questions := questionResults sampleQuestions [.str "A lock".toList],
            category := "Technical".toList, improvementTip := none } }
      rfl rfl
      ⟨1, { question := .str "What is a B-tree?".toList,
            correctAnswer := .str "An index".toList,
            explanation := .str "It keeps keys sorted.".toList }, rfl, by decide⟩
      rfl rfl).1,
    by decide, by decide⟩

/-- C26, as the code has it: saveQuizResult builds one result per question,
in order, with isCorrect true exactly when the correctAnswer of the question
is strictly equal to the answer at the same index; a missing answer counts as
wrong when the question has a correctAnswer. The provider is called, once, if
and only if at least one result is wrong (a result whose answer is not the
answer of the user); the assessment created holds the id of the user, the
score argument unchanged, the results and the category `Technical`, with
improvementTip `null` when every answer is right, and otherwise the trimmed
answer of the provider, or `null` when the provider fails. -/
theorem saveQuizResult_results (s : Server) (questions : List Question)
    (answers : List JsVal) (score : Rat) (user : Profile)
    (hu : truthy s.userId = true)
    (hp : s.db.userFindUnique 0 (s.userId.getD []) = .ok (some user)) :
    (questionResults questions answers).length = questions.length ∧
    (∀ i : Nat, (questionResults questions answers)[i]? =
      (questions[i]?).map fun q =>
        ({ question := q.question, answer := q.correctAnswer,
           userAnswer := answers.getD i .undefined,
           isCorrect := decide (q.correctAnswer = answers.getD i .undefined),
           explanation := q.explanation } : QuestionResult)) ∧
    (∀ (i : Nat) (q : Question), questions[i]? = some q →
      ∃ r, (questionResults questions answers)[i]? = some r ∧
        (r.isCorrect = true ↔ q.correctAnswer = answers.getD i .undefined)) ∧
    (∀ (i : Nat) (q : Question) (c : Str), questions[i]? = some q →
      q.correctAnswer = .str c → answers.length ≤ i →
      ∃ r, (questionResults questions answers)[i]? = some r ∧ r.isCorrect = false) ∧
    (saveQuizResult s questions answers score).calls =
      (if ((questionResults questions answers).all
          fun r => decide (r.answer = r.userAnswer)) = true then 0 else 1) ∧
    ((saveQuizResult s questions answers score).calls = 1 ↔
      ∃ i q, questions[i]? = some q ∧ q.correctAnswer ≠ answers.getD i .undefined) ∧
    (saveQuizResult s questions answers score).db =
      [ .userFindUnique (s.userId.getD []),
        .assessmentCreate
          { userId := user.id, quizScore := score,
            questions := questionResults questions answers,
            category := "Technical".toList,
            improvementTip :=
              if ((questionResults questions answers).all
                  fun r => decide (r.answer = r.userAnswer)) = true then none
              else
                match s.ai "gemini-2.5-flash".toList
                  (improvementPrompt user ((questionResults questions answers).filter
                    fun r => decide (r.answer ≠ r.userAnswer))) 0 with
                | .ok text => some ((text.map trim).getD [])
                | .fail _ => none } ] := by
  have hwrong : wrongAnswers (questionResults questions answers) =
      (questionResults questions answers).filter
        fun r => decide (r.answer ≠ r.userAnswer) := by
    unfold wrongAnswers
    apply List.filter_congr
    intro r hr
    rw [isCorrect_of_mem answers 0 questions r hr]
    simp
  have hall_iff : ((questionResults questions answers).all
        fun r => decide (r.answer = r.userAnswer)) = true ↔
      ¬ ∃ i q, questions[i]? = some q ∧ q.correctAnswer ≠ answers.getD i .undefined := by
    constructor
    · intro hall hw
      exact not_all_right_of_wrong questions answers hw hall
    · intro hno
      rw [List.all_eq_true]
      intro r hr
      obtain ⟨i, hi⟩ := List.mem_iff_getElem?.mp hr
      rw [questionResults_getElem? questions answers i] at hi
      cases hq : questions[i]? with
      | none => rw [hq] at hi; exact Option.noConfusion hi
      | some q =>
        rw [hq, Option.map_some'] at hi
        have e := Option.some.inj hi
        rw [← e]
        simp only [decide_eq_true_eq]
        by_contra hne
        exact hno ⟨i, q, hq, hne⟩
  have hcalls : (saveQuizResult s questions answers score).calls =
      (if ((questionResults questions answers).all
          fun r => decide (r.answer = r.userAnswer)) = true then 0 else 1) := by
    rw [saveQuizResult, withUser_found s _ user hu hp]
    have e2 : (improvementTipOf s user (questionResults questions answers)).2 =
        (if ((questionResults questions answers).all
            fun r => decide (r.answer = r.userAnswer)) = true then 0 else 1) := by
      rw [improvementTipOf_eq s user questions answers hwrong]
      split
      · rfl
      · split <;> rfl
    simp only []
    split <;> exact e2
  refine ⟨questionResultsFrom_length answers 0 questions,
    questionResults_getElem? questions answers, ?_, ?_, hcalls, ?_, ?_⟩
  · intro i q hq
    refine ⟨_, by rw [questionResults_getElem? questions answers i, hq]; rfl, ?_⟩
    simp
  · intro i q c hq hc hlen
    refine ⟨_, by rw [questionResults_getElem? questions answers i, hq]; rfl, ?_⟩
    have hget : answers.getD i .undefined = .undefined := by
      simp [List.getD, List.getElem?_eq_none hlen]
    simp only [hc, hget]
    exact decide_eq_false (fun h => JsVal.noConfusion h)
  · rw [hcalls]
    by_cases hall : ((questionResults questions answers).all
        fun r => decide (r.answer = r.userAnswer)) = true
    · rw [if_pos hall]
      exact ⟨fun h => absurd h (by decide), fun hw => absurd hw (hall_iff.mp hall)⟩
    · rw [if_neg hall]
      refine ⟨fun _ => ?_, fun _ => rfl⟩
      by_contra hno
      exact hall (hall_iff.mpr hno)
  · rw [saveQuizResult, withUser_found s _ user hu hp]
    have e1 : (improvementTipOf s user (questionResults questions answers)).1 =
        (if ((questionResults questions answers).all
            fun r => decide (r.answer = r.userAnswer)) = true then none
          else
            match s.ai "gemini-2.5-flash".toList
              (improvementPrompt user ((questionResults questions answers).filter
                fun r => decide (r.answer ≠ r.userAnswer))) 0 with
            | .ok text => some ((text.map trim).getD [])
            | .fail _ => none) := by
      rw [improvementTipOf_eq s user questions answers hwrong]
      split
      · rfl
      · split <;> rfl
    simp only []
    rw [e1]
    split <;> rfl

/-- Witness of C26: with every answer right the provider is not called and
the assessment is created without tip; with the second answer wrong the
provider is called once and its answer is stored as the tip. -/
theorem saveQuizResult_results_witness :
    ((saveQuizResult (sampleServer proseProvider) sampleQuestions
        [.str "A lock".toList, .str "An index".toList] 100).calls = 0 ∧
      (saveQuizResult (sampleServer proseProvider) sampleQuestions
        [.str "A lock".toList, .str "An index".toList] 100).db =
        [ .userFindUnique "user_1".toList,
          .assessmentCreate
            { userId := "u1".toList, quizScore := 100,
              questions :=
                questionResults sampleQuestions [.str "A lock".toList, .str "An index".toList],
              category := "Technical".toList, improvementTip := none } ]) ∧
    ((saveQuizResult (sampleServer proseProvider) sampleQuestions sampleAnswers 50).calls = 1 ∧
      (saveQuizResult (sampleServer proseProvider) sampleQuestions sampleAnswers 50).db =
        [ .userFindUnique "user_1".toList,
          .assessmentCreate
            { userId := "u1".toList, quizScore := 50,
              questions := questionResults sampleQuestions sampleAnswers,
              category := "Technical".toList,
              improvementTip := some "Sorry, here are some thoughts.".toList } ]) ∧
    (questionResults sampleQuestions sampleAnswers).map (fun r => r.isCorrect) =
      [true, false] ∧
    (saveQuizResult (sampleServer proseProvider) sampleQuestions [.str "A lock".toList]
      50).calls = 1 :=
  have h1 := saveQuizResult_results (sampleServer proseProvider) sampleQuestions
    [.str "A lock".toList, .str "An index".toList] 100 sampleProfile rfl rfl
  have h2 := saveQuizResult_results (sampleServer proseProvider) sampleQuestions
    sampleAnswers 50 sampleProfile rfl rfl
  ⟨⟨h1.2.2.2.2.1.trans (by decide), h1.2.2.2.2.2.2.trans rfl⟩,
    ⟨h2.2.2.2.2.1.trans (by decide), h2.2.2.2.2.2.2.trans rfl⟩, by decide, by decide⟩

/-- Counterexample of C26 as stated: for a question without correctAnswer a
missing answer counts as right, and no tip is asked for. -/
theorem missing_answer_counts_as_right :
    (questionResults keylessQuestions []).map (fun r => (r.userAnswer, r.isCorrect)) =
      [(.undefined, true)] ∧
    (saveQuizResult (sampleServer proseProvider) keylessQuestions [] 0).calls = 0 := by
  decide

end Sensai
